import Mathlib

/-!
Verification of the logiEx inventory transaction workflow.

This file shallowly embeds the sale, purchase and transfer controllers of
the logiEx REST backend (src/controllers/sales.js, src/controllers/transfers.js,
and the purchases controller) over an explicit relational state, and proves
or refutes the specification's claims about them.

Conventions of the embedding:
- Postgres `ilike` matching on plain business identifiers (no wildcards occur
  in the code) is modelled as equality of case-folded strings (`imatch`).
- SQL numeric/float values are modelled as `Rat`; integer quantities as `Int`.
- A JavaScript `parseFloat` result that is absent or `NaN` is modelled as
  `Option.none`; a parsed number as `some x`.
- Each controller action is a function `DB → Request → Nat × DB` returning
  the HTTP status code and the committed database state.  A `throw` inside a
  `db.transaction` body rolls the transaction back, so failing paths return
  the unchanged input state.
-/

/-- Case folding of a string, used to model Postgres `ilike` matching. -/
def lowerStr (s : String) : List Char := s.data.map Char.toLower

/-- Case-insensitive string match, the model of `ilike` on wildcard-free
business identifiers. -/
def imatch (a b : String) : Bool := lowerStr a == lowerStr b

/-- A row of the stock ledger (the `logiex_inventory_products` table):
quantity on hand per (mr_id, inventory, product). -/
structure LedgerRow where
  id : Nat
  mr_id : String
  inventory : String
  product : String
  quantity : Int
deriving DecidableEq, Repr

/-- A sale header row (`logiex_sales`). -/
structure SaleHeader where
  bill_id : String
  customer_id : String
  shipping_address : String
  adjustment : Rat
  total_amount : Rat
  status : String
deriving DecidableEq, Repr

/-- A sale line row (`logiex_sale_products`). -/
structure SaleLine where
  mr_id : String
  inventory : String
  bill_id : String
  product : String
  quantity : Int
  unit_price : Rat
  discount : Rat
  total_price : Rat
deriving DecidableEq, Repr

/-- A purchase header row (`logiex_purchases`). -/
structure PurchaseHeader where
  mr_id : String
  vendor : String
  inventory : String
  adjustment : Rat
  total_price : Rat
deriving DecidableEq, Repr

/-- A purchase line row (`logiex_purchase_products`). -/
structure PurchaseLine where
  mr_id : String
  product : String
  quantity : Int
  unit_price : Rat
  discount : Rat
  total_price : Rat
deriving DecidableEq, Repr

/-- A transfer header row (`logiex_transfers`). -/
structure TransferHeader where
  trf_id : String
  source_inventory : String
  destination_inventory : String
deriving DecidableEq, Repr

/-- A transfer line row (`logiex_transfer_products`). -/
structure TransferLine where
  trf_id : String
  mr_id : String
  product : String
  quantity : Int
deriving DecidableEq, Repr

/-- The relational store: every table the three workflows touch, plus the
reference tables they validate against, and a supply of fresh row ids for
ledger inserts. -/
structure DB where
  ledger : List LedgerRow
  sales : List SaleHeader
  saleLines : List SaleLine
  purchases : List PurchaseHeader
  purchaseLines : List PurchaseLine
  transfers : List TransferHeader
  transferLines : List TransferLine
  customers : List String
  inventories : List String
  vendors : List String
  catalog : List String
  nextId : Nat
deriving DecidableEq, Repr

/-- The per-line total as the code computes it:
`quantity * unit_price - (quantity * unit_price * discount) / 100`. -/
def lineTotalCode (q : Int) (u d : Rat) : Rat :=
  (q : Rat) * u - ((q : Rat) * u * d) / 100

/-- The per-line total as the spec states it:
`quantity * unit_price * (1 - discount / 100)`. -/
def lineTotalSpec (q : Int) (u d : Rat) : Rat :=
  (q : Rat) * u * (1 - d / 100)

/-- One line of a sale-creation request.  `discount = none` models an absent
field or one `parseFloat` turns into `NaN`. -/
structure SaleReqLine where
  product : String
  quantity : Int
  unit_price : Rat
  discount : Option Rat
deriving DecidableEq, Repr

/-- A sale-creation request body. -/
structure SaleReq where
  bill_id : String
  customer_id : String
  inventory : String
  shipping_address : String
  status : String
  products : List SaleReqLine
deriving DecidableEq, Repr

/-- The ledger lookup predicate of `salesController.create`: inventory and
product match case-insensitively and the row holds at least the requested
quantity (`ilike`, `ilike`, `gte`). -/
def salePred (inv : String) (l : SaleReqLine) (r : LedgerRow) : Bool :=
  imatch r.inventory inv && imatch r.product l.product &&
    decide (l.quantity ≤ r.quantity)

/-- The sale line row inserted for a request line, with the lot id taken from
the matched ledger row and the code's line total. -/
def mkSaleLine (bill inv : String) (r : LedgerRow) (l : SaleReqLine) : SaleLine :=
  { mr_id := r.mr_id
    inventory := inv
    bill_id := bill
    product := l.product
    quantity := l.quantity
    unit_price := l.unit_price
    discount := l.discount.getD 0
    total_price := lineTotalCode l.quantity l.unit_price (l.discount.getD 0) }

/-- The relative update `quantity = quantity + δ` on the ledger row with the
given primary key. -/
def updRow (L : List LedgerRow) (rid : Nat) (δ : Int) : List LedgerRow :=
  L.map fun r => if r.id = rid then { r with quantity := r.quantity + δ } else r

/-- The per-line loop of `salesController.create`: find a sufficient ledger
row, insert the sale line, decrement the row; a line without a sufficient row
throws, aborting the whole transaction (`none`). -/
def sellLoop (bill inv : String) :
    List LedgerRow → List SaleLine → List SaleReqLine →
    Option (List LedgerRow × List SaleLine)
  | L, acc, [] => some (L, acc)
  | L, acc, l :: ls =>
    match L.find? (salePred inv l) with
    | none => none
    | some r =>
        sellLoop bill inv (updRow L r.id (-l.quantity))
          (acc ++ [mkSaleLine bill inv r l]) ls

/-- The freshly inserted sale header (adjustment and total default to 0,
status from the request). -/
def newSaleHeader (req : SaleReq) : SaleHeader :=
  { bill_id := req.bill_id
    customer_id := req.customer_id
    shipping_address := req.shipping_address
    adjustment := 0
    total_amount := 0
    status := req.status }

/-- Sum of stored line totals of a list of sale lines. -/
def sumTotals (ls : List SaleLine) : Rat := (ls.map SaleLine.total_price).sum

/-- Modelled from the spec: `findInventoryByName` (service source not in
src/) looks an inventory up by name case-insensitively. -/
def inventoryExists (st : DB) (name : String) : Bool :=
  (st.inventories.find? fun i => imatch i name).isSome

/-- The `salesController.create` endpoint: request validation and uniqueness,
customer and inventory checks, then a transaction that inserts the header,
processes every line against the ledger, and writes the summed total back to
the header.  A thrown error inside the transaction surfaces as HTTP 500 with
all writes rolled back. -/
def salesCreate (st : DB) (req : SaleReq) : Nat × DB :=
  if req.products.isEmpty then (400, st)
  else if (st.sales.find? fun s => imatch s.bill_id req.bill_id).isSome then (409, st)
  else if !(st.customers.contains req.customer_id) then (404, st)
  else if !(inventoryExists st req.inventory) then (404, st)
  else
    match sellLoop req.bill_id req.inventory st.ledger [] req.products with
    | none => (500, st)
    | some (L, acc) =>
        let total := sumTotals acc
        (201, { st with
          ledger := L
          saleLines := st.saleLines ++ acc
          sales := (st.sales ++ [newSaleHeader req]).map fun s =>
            if imatch s.bill_id req.bill_id then { s with total_amount := total }
            else s })

/-- One line of a transfer-creation request. -/
structure TransferReqLine where
  mr_id : String
  product : String
  quantity : Int
deriving DecidableEq, Repr

/-- A transfer-creation request body. -/
structure TransferReq where
  trf_id : String
  source_inventory : String
  destination_inventory : String
  products : List TransferReqLine
deriving DecidableEq, Repr

/-- The source-ledger lookup predicate of `transfersController.create`:
`ilike` on inventory, mr_id and product, plus `gte` on quantity. -/
def srcPred (srcInv : String) (l : TransferReqLine) (r : LedgerRow) : Bool :=
  imatch r.inventory srcInv && imatch r.mr_id l.mr_id &&
    imatch r.product l.product && decide (l.quantity ≤ r.quantity)

/-- The destination-ledger lookup predicate of `transfersController.create`:
`ilike` on inventory, mr_id and product (no quantity bound). -/
def dstPred (dstInv : String) (l : TransferReqLine) (r : LedgerRow) : Bool :=
  imatch r.inventory dstInv && imatch r.mr_id l.mr_id && imatch r.product l.product

/-- The per-line loop of `transfersController.create`: find a sufficient
source row (abort otherwise), look the destination row up on the state before
the decrement, decrement the source, increment the destination or insert a
fresh destination row, and record the transfer line. -/
def transferLoop (trf src dst : String) :
    List LedgerRow → Nat → List TransferLine → List TransferReqLine →
    Option (List LedgerRow × Nat × List TransferLine)
  | L, nid, acc, [] => some (L, nid, acc)
  | L, nid, acc, l :: ls =>
    match L.find? (srcPred src l) with
    | none => none
    | some s =>
      match L.find? (dstPred dst l) with
      | some d =>
          transferLoop trf src dst
            (updRow (updRow L s.id (-l.quantity)) d.id l.quantity) nid
            (acc ++ [⟨trf, l.mr_id, l.product, l.quantity⟩]) ls
      | none =>
          transferLoop trf src dst
            (updRow L s.id (-l.quantity) ++
              [⟨nid, l.mr_id, dst, l.product, l.quantity⟩]) (nid + 1)
            (acc ++ [⟨trf, l.mr_id, l.product, l.quantity⟩]) ls

/-- The `transfersController.create` endpoint. -/
def transfersCreate (st : DB) (req : TransferReq) : Nat × DB :=
  if req.products.isEmpty then (400, st)
  else if (st.transfers.find? fun t => imatch t.trf_id req.trf_id).isSome then (409, st)
  else if !(inventoryExists st req.source_inventory) then (404, st)
  else if !(inventoryExists st req.destination_inventory) then (404, st)
  else
    match transferLoop req.trf_id req.source_inventory req.destination_inventory
        st.ledger st.nextId [] req.products with
    | none => (500, st)
    | some (L, nid, acc) =>
        (201, { st with
          ledger := L
          nextId := nid
          transfers := st.transfers ++
            [⟨req.trf_id, req.source_inventory, req.destination_inventory⟩]
          transferLines := st.transferLines ++ acc })

/-- The reversal-update predicate of `transfersController.deleteByTrfId` on
the source side: `ilike` on inventory, product and mr_id.  The update carries
no primary-key bound, so it hits every matching row. -/
def srcUpdPred (srcInv : String) (tl : TransferLine) (r : LedgerRow) : Bool :=
  imatch r.inventory srcInv && imatch r.product tl.product && imatch r.mr_id tl.mr_id

/-- The destination-side lookup and update predicate of
`transfersController.deleteByTrfId`. -/
def dstUpdPred (dstInv : String) (tl : TransferLine) (r : LedgerRow) : Bool :=
  imatch r.inventory dstInv && imatch r.product tl.product && imatch r.mr_id tl.mr_id

/-- The relative update `quantity = quantity + δ` applied to every ledger row
satisfying a predicate (an `update ... where ilike ...` with no key bound). -/
def condAdd (L : List LedgerRow) (p : LedgerRow → Bool) (δ : Int) : List LedgerRow :=
  L.map fun r => if p r then { r with quantity := r.quantity + δ } else r

/-- The reversal loop of `transfersController.deleteByTrfId`: for each deleted
transfer line, read the destination row's current quantity (destructuring an
absent row throws, aborting the transaction), add it to every matching source
row and subtract it from every matching destination row. -/
def deleteLoop (src dst : String) :
    List LedgerRow → List TransferLine → Option (List LedgerRow)
  | L, [] => some L
  | L, tl :: tls =>
    match L.find? (dstUpdPred dst tl) with
    | none => none
    | some d =>
        deleteLoop src dst
          (condAdd (condAdd L (srcUpdPred src tl) d.quantity)
            (dstUpdPred dst tl) (-d.quantity)) tls

/-- The `transfersController.deleteByTrfId` endpoint: look the header up,
delete its lines, reverse each line's current destination quantity back to the
source, then delete the header; a throw inside the transaction (missing
destination row) rolls everything back and surfaces as HTTP 500. -/
def transfersDelete (st : DB) (trfId : String) : Nat × DB :=
  match st.transfers.find? (fun t => imatch t.trf_id trfId) with
  | none => (404, st)
  | some hdr =>
    match deleteLoop hdr.source_inventory hdr.destination_inventory st.ledger
        (st.transferLines.filter fun tl => imatch tl.trf_id hdr.trf_id) with
    | none => (500, st)
    | some L =>
        (200, { st with
          ledger := L
          transferLines := st.transferLines.filter fun tl =>
            !(imatch tl.trf_id hdr.trf_id)
          transfers := st.transfers.filter fun t => !(imatch t.trf_id trfId) })

/-- One line of a purchase-creation request. -/
structure PurchaseReqLine where
  product : String
  quantity : Int
  unit_price : Rat
  discount : Option Rat
deriving DecidableEq, Repr

/-- A purchase-creation request body. -/
structure PurchaseReq where
  mr_id : String
  vendor : String
  inventory : String
  products : List PurchaseReqLine
deriving DecidableEq, Repr

/-- The purchase line row inserted for a request line. -/
def mkPurchaseLine (mr : String) (l : PurchaseReqLine) : PurchaseLine :=
  { mr_id := mr
    product := l.product
    quantity := l.quantity
    unit_price := l.unit_price
    discount := l.discount.getD 0
    total_price := lineTotalCode l.quantity l.unit_price (l.discount.getD 0) }

/-- Modelled from the spec: `findVendorByName` (service source not in src/)
looks a vendor up by name case-insensitively. -/
def vendorExists (st : DB) (name : String) : Bool :=
  (st.vendors.find? fun v => imatch v name).isSome

/-- Modelled from the spec: `findProductByName` (service source not in src/)
looks a catalog product up by name case-insensitively. -/
def productExists (st : DB) (name : String) : Bool :=
  (st.catalog.find? fun c => imatch c name).isSome

/-- The `purchasesController.create` endpoint: uniqueness and reference
checks (vendor, inventory, every line's catalog product), then a transaction
inserting the header, one purchase line and one fresh ledger row per request
line, and finally the summed total on the header. -/
def purchasesCreate (st : DB) (req : PurchaseReq) : Nat × DB :=
  if req.products.isEmpty then (400, st)
  else if (st.purchases.find? fun pu => imatch pu.mr_id req.mr_id).isSome then (409, st)
  else if !(vendorExists st req.vendor) then (404, st)
  else if !(inventoryExists st req.inventory) then (404, st)
  else if req.products.any (fun l => !(productExists st l.product)) then (404, st)
  else
    let plines := req.products.map (mkPurchaseLine req.mr_id)
    let total := (plines.map PurchaseLine.total_price).sum
    (201, { st with
      purchases := (st.purchases ++
          [({ mr_id := req.mr_id, vendor := req.vendor, inventory := req.inventory,
              adjustment := 0, total_price := 0 } : PurchaseHeader)]).map
        fun (pu : PurchaseHeader) =>
          if imatch pu.mr_id req.mr_id then { pu with total_price := total } else pu
      purchaseLines := st.purchaseLines ++ plines
      ledger := st.ledger ++
        ((List.range req.products.length).zip req.products).map
          fun (il : Nat × PurchaseReqLine) =>
            ({ id := st.nextId + il.1, mr_id := req.mr_id, inventory := req.inventory,
               product := il.2.product, quantity := il.2.quantity } : LedgerRow)
      nextId := st.nextId + req.products.length })

/-- A sale-update request body; `none` models an absent field (or, for the
adjustment, a value `parseFloat` turns into `NaN`). -/
structure SaleUpdReq where
  bill_id : Option String
  customer_id : Option String
  shipping_address : Option String
  adjustment : Option Rat
  status : Option String
deriving DecidableEq, Repr

/-- JavaScript truthiness of the parsed adjustment: present and nonzero. -/
def adjTruthy (a : Option Rat) : Bool :=
  match a with
  | some x => decide (x ≠ 0)
  | none => false

/-- Modelled from the spec: `calculateSalePrice(billId)` (service source not
in src/) freshly sums the persisted sale lines' stored totals for the bill. -/
def calculateSalePrice (st : DB) (billId : String) : Rat :=
  ((st.saleLines.filter fun l => imatch l.bill_id billId).map
    SaleLine.total_price).sum

/-- The `salesController.updateByBillId` endpoint: find the sale, check a
changed bill_id or customer_id, recompute the current line-total sum, apply
the truthiness-guarded adjustment bound, and write the merged header back. -/
def salesUpdateByBillId (st : DB) (billId : String) (req : SaleUpdReq) : Nat × DB :=
  match st.sales.find? (fun s => imatch s.bill_id billId) with
  | none => (404, st)
  | some ex =>
    if (match req.bill_id with
        | some b => decide (b ≠ ex.bill_id) &&
            (st.sales.find? fun (s : SaleHeader) => imatch s.bill_id b).isSome
        | none => false) then (409, st)
    else if (match req.customer_id with
        | some c => decide (c ≠ ex.customer_id) && !(st.customers.contains c)
        | none => false) then (404, st)
    else
      let avail := calculateSalePrice st billId
      if adjTruthy req.adjustment ∧
          (req.adjustment.getD 0 < 0 ∨ avail < req.adjustment.getD 0) then
        (400, st)
      else
        let setAdj := if adjTruthy req.adjustment then req.adjustment.getD 0
          else ex.adjustment
        let upd : SaleHeader :=
          { bill_id := req.bill_id.getD ex.bill_id
            customer_id := req.customer_id.getD ex.customer_id
            shipping_address := req.shipping_address.getD ex.shipping_address
            adjustment := setAdj
            total_amount := avail - setAdj
            status := req.status.getD ex.status }
        (200, { st with
          sales := st.sales.map fun (s : SaleHeader) =>
            if imatch s.bill_id billId then upd else s })

/-- A purchase-update request body. -/
structure PurchaseUpdReq where
  mr_id : Option String
  vendor : Option String
  inventory : Option String
  adjustment : Option Rat
deriving DecidableEq, Repr

/-- Modelled from the spec: `calculatePurchasePrice(mrId)` (service source
not in src/) freshly sums the persisted purchase lines' stored totals. -/
def calculatePurchasePrice (st : DB) (mrId : String) : Rat :=
  ((st.purchaseLines.filter fun l => imatch l.mr_id mrId).map
    PurchaseLine.total_price).sum

/-- The `purchasesController.updateByMrId` endpoint: find the purchase, check
changed unique and foreign fields, recompute the current line-total sum,
apply the truthiness-guarded adjustment bound, write the merged header back,
and relocate every ledger row of this mr_id to the header's inventory. -/
def purchasesUpdateByMrId (st : DB) (mrId : String) (req : PurchaseUpdReq) :
    Nat × DB :=
  match st.purchases.find? (fun pu => imatch pu.mr_id mrId) with
  | none => (404, st)
  | some ex =>
    if (match req.mr_id with
        | some m => decide (m ≠ ex.mr_id) &&
            (st.purchases.find? fun (pu : PurchaseHeader) => imatch pu.mr_id m).isSome
        | none => false) then (409, st)
    else if (match req.vendor with
        | some v => decide (v ≠ ex.vendor) && !(vendorExists st v)
        | none => false) then (404, st)
    else if (match req.inventory with
        | some i => decide (i ≠ ex.inventory) && !(inventoryExists st i)
        | none => false) then (404, st)
    else
      let avail := calculatePurchasePrice st mrId
      if adjTruthy req.adjustment ∧
          (req.adjustment.getD 0 < 0 ∨ avail < req.adjustment.getD 0) then
        (400, st)
      else
        let setAdj := if adjTruthy req.adjustment then req.adjustment.getD 0
          else ex.adjustment
        let newInv := req.inventory.getD ex.inventory
        let upd : PurchaseHeader :=
          { mr_id := req.mr_id.getD ex.mr_id
            vendor := req.vendor.getD ex.vendor
            inventory := newInv
            adjustment := setAdj
            total_price := avail - setAdj }
        (200, { st with
          purchases := st.purchases.map fun (pu : PurchaseHeader) =>
            if imatch pu.mr_id mrId then upd else pu
          ledger := st.ledger.map fun (r : LedgerRow) =>
            if imatch r.mr_id mrId then { r with inventory := newInv } else r })

/-- An empty database, base for the concrete test states below. -/
def emptyDB : DB :=
  { ledger := [], sales := [], saleLines := [], purchases := [],
    purchaseLines := [], transfers := [], transferLines := [],
    customers := [], inventories := [], vendors := [], catalog := [],
    nextId := 0 }

/-- Concrete state: one ledger row of lower-case product "widget" at
inventory "Main", one known customer. -/
def dbWidget (qty : Int) : DB :=
  { emptyDB with
    ledger := [⟨0, "MR1", "Main", "widget", qty⟩]
    customers := ["c1"]
    inventories := ["Main"]
    nextId := 1 }

/-- Concrete sale-creation request for a single product line. -/
def oneLineSaleReq (productName : String) (q : Int) (u : Rat) : SaleReq :=
  { bill_id := "B1", customer_id := "c1", inventory := "Main",
    shipping_address := "addr", status := "processing",
    products := [⟨productName, q, u, none⟩] }

/-- Concrete state: ten units of "prodA" at "Main", one customer. -/
def dbProdA : DB :=
  { emptyDB with
    ledger := [⟨0, "MR1", "Main", "prodA", 10⟩]
    customers := ["c1"]
    inventories := ["Main"]
    nextId := 1 }

/-- Concrete sale-creation request with two lines for the same product. -/
def twoLineSaleReq : SaleReq :=
  { bill_id := "B1", customer_id := "c1", inventory := "Main",
    shipping_address := "addr", status := "processing",
    products := [⟨"prodA", 2, 1, none⟩, ⟨"prodA", 3, 1, none⟩] }

/-- Concrete state: a sale "B1" with stored adjustment 5 and one line whose
stored total is 100, and a purchase "MR1" with the same shape. -/
def dbAdj : DB :=
  { emptyDB with
    sales := [⟨"B1", "c1", "addr", 5, 95, "processing"⟩]
    saleLines := [⟨"MR1", "Main", "B1", "prodA", 1, 100, 0, 100⟩]
    purchases := [⟨"MR1", "V", "Main", 5, 95⟩]
    purchaseLines := [⟨"MR1", "prodA", 1, 100, 0, 100⟩]
    customers := ["c1"]
    vendors := ["V"]
    inventories := ["Main"] }

/-- A sale-update request supplying only an adjustment. -/
def adjOnlySaleUpd (a : Option Rat) : SaleUpdReq :=
  { bill_id := none, customer_id := none, shipping_address := none,
    adjustment := a, status := none }

/-- A purchase-update request supplying only an adjustment. -/
def adjOnlyPurchaseUpd (a : Option Rat) : PurchaseUpdReq :=
  { mr_id := none, vendor := none, inventory := none, adjustment := a }

/-- Concrete state for transfers: lot "L1" of "ProdA" at source "A" (7 units)
and destination "B" (4 units), and a recorded transfer "T1" of 10 units. -/
def dbTrf : DB :=
  { emptyDB with
    ledger := [⟨0, "L1", "A", "ProdA", 7⟩, ⟨1, "L1", "B", "ProdA", 4⟩]
    transfers := [⟨"T1", "A", "B"⟩]
    transferLines := [⟨"T1", "L1", "ProdA", 10⟩]
    inventories := ["A", "B"]
    nextId := 2 }

/-- Concrete state like `dbTrf` but with the destination ledger row of the
recorded transfer missing. -/
def dbTrfNoDest : DB :=
  { emptyDB with
    ledger := [⟨0, "L1", "A", "ProdA", 7⟩]
    transfers := [⟨"T1", "A", "B"⟩]
    transferLines := [⟨"T1", "L1", "ProdA", 10⟩]
    inventories := ["A", "B"]
    nextId := 1 }

/-- Concrete transfer-creation request of 3 units of "L1"/"ProdA" from "A"
to "B". -/
def trfReq : TransferReq :=
  { trf_id := "T2", source_inventory := "A", destination_inventory := "B",
    products := [⟨"L1", "ProdA", 3⟩] }

/-- Concrete state for creation totals: vendor, catalog products and a
customer with stock. -/
def dbTotals : DB :=
  { emptyDB with
    ledger := [⟨0, "MRX", "Main", "proda", 50⟩]
    customers := ["c1"]
    vendors := ["V"]
    inventories := ["Main"]
    catalog := ["prodA", "prodB"]
    nextId := 1 }

/-- Concrete purchase-creation request with a discounted and an undiscounted
line. -/
def purchaseReqTotals : PurchaseReq :=
  { mr_id := "MR2", vendor := "V", inventory := "Main",
    products := [⟨"prodA", 2, 10, some 10⟩, ⟨"prodB", 1, 5, none⟩] }

/-- Concrete sale-creation request with one discounted line. -/
def saleReqTotals : SaleReq :=
  { bill_id := "B9", customer_id := "c1", inventory := "Main",
    shipping_address := "addr", status := "processing",
    products := [⟨"ProdA", 3, 4, some 50⟩] }

/-- The case-insensitive (mr_id, product) key match used to state quantity
conservation across inventories. -/
def keyMatch (m p : String) (r : LedgerRow) : Bool :=
  imatch r.mr_id m && imatch r.product p

/-- System-wide ledger quantity for a case-insensitive (mr_id, product) key,
summed across all inventory locations. -/
def keySum (m p : String) : List LedgerRow → Int
  | [] => 0
  | r :: rs => (if keyMatch m p r then r.quantity else 0) + keySum m p rs

theorem imatch_refl (a : String) : imatch a a = true := by
  simp [imatch]

theorem imatch_iff {a b : String} : imatch a b = true ↔ lowerStr a = lowerStr b := by
  simp [imatch]

theorem imatch_congr {a b : String} (c : String) (h : lowerStr a = lowerStr b) :
    imatch a c = imatch b c := by
  simp [imatch, h]

theorem find?_map_congr {α : Type} (f : α → α) (p : α → Bool) :
    ∀ (L : List α), (∀ x ∈ L, p (f x) = p x) →
      (L.map f).find? p = (L.find? p).map f := by
  intro L
  induction L with
  | nil => intro _; rfl
  | cons a L ih =>
    intro h
    have ha := h a (List.mem_cons_self a L)
    by_cases hpa : p a = true
    · simp [List.find?_cons, ha, hpa]
    · have hpa' : p a = false := by revert hpa; cases p a <;> simp
      simp only [List.map_cons, List.find?_cons, ha, hpa']
      exact ih fun x hx => h x (List.mem_cons_of_mem a hx)

theorem find?_map_eq_self {α : Type} (f : α → α) (p : α → Bool) (L : List α)
    (h : ∀ x ∈ L, p (f x) = p x) (h2 : ∀ x ∈ L, p x = true → f x = x) :
    (L.map f).find? p = L.find? p := by
  rw [find?_map_congr f p L h]
  cases hf : L.find? p with
  | none => rfl
  | some x =>
    have hx := List.mem_of_find?_eq_some hf
    have hpx := List.find?_some hf
    simp [h2 x hx hpx]

theorem find?_eq_of_unique {α : Type} (p : α → Bool) {d : α} :
    ∀ (L : List α), d ∈ L → p d = true → (∀ r ∈ L, p r = true → r = d) →
      L.find? p = some d := by
  intro L
  induction L with
  | nil => intro h; cases h
  | cons a L ih =>
    intro hd hpd hu
    by_cases hpa : p a = true
    · have : a = d := hu a (List.mem_cons_self a L) hpa
      simp [List.find?_cons, hpa, this, hpd]
    · have hpa' : p a = false := by revert hpa; cases p a <;> simp
      have hd' : d ∈ L := by
        rcases List.mem_cons.mp hd with h | h
        · exact absurd (h ▸ hpd) (by simp [hpa'])
        · exact h
      simp only [List.find?_cons, hpa']
      exact ih hd' hpd fun r hr => hu r (List.mem_cons_of_mem a hr)

theorem find?_append_none {α : Type} (p : α → Bool) :
    ∀ (L1 L2 : List α), L1.find? p = none →
      (L1 ++ L2).find? p = L2.find? p := by
  intro L1
  induction L1 with
  | nil => intro L2 _; rfl
  | cons a L ih =>
    intro L2 h
    rw [List.find?_cons] at h
    by_cases hpa : p a = true
    · simp [hpa] at h
    · have hpa' : p a = false := by revert hpa; cases p a <;> simp
      rw [List.cons_append, List.find?_cons, hpa']
      rw [hpa'] at h
      exact ih L2 (by simpa using h)

theorem ledger_id_inj {L : List LedgerRow}
    (h : (L.map LedgerRow.id).Nodup) {a b : LedgerRow}
    (ha : a ∈ L) (hb : b ∈ L) (hid : a.id = b.id) : a = b :=
  List.inj_on_of_nodup_map h ha hb hid

theorem find?_id_of_nodup {L : List LedgerRow}
    (h : (L.map LedgerRow.id).Nodup) {r : LedgerRow} (hr : r ∈ L) :
    L.find? (fun x => x.id == r.id) = some r := by
  apply find?_eq_of_unique
  · exact hr
  · simp
  · intro x hx hpx
    exact ledger_id_inj h hx hr (by simpa using hpx)

theorem updRow_ids (L : List LedgerRow) (rid : Nat) (δ : Int) :
    (updRow L rid δ).map LedgerRow.id = L.map LedgerRow.id := by
  simp only [updRow, List.map_map]
  apply List.map_congr_left
  intro r _
  by_cases h : r.id = rid <;> simp [h]

theorem updRow_nodup {L : List LedgerRow} (rid : Nat) (δ : Int)
    (h : (L.map LedgerRow.id).Nodup) :
    ((updRow L rid δ).map LedgerRow.id).Nodup := by
  rw [updRow_ids]; exact h

theorem find?_id_updRow (L : List LedgerRow) (rid rid' : Nat) (δ : Int) :
    (updRow L rid' δ).find? (fun x => x.id == rid) =
      (L.find? (fun x => x.id == rid)).map
        (fun r => if r.id = rid' then { r with quantity := r.quantity + δ } else r) := by
  apply find?_map_congr
  intro x _
  by_cases h : x.id = rid' <;> simp [h]

theorem condAdd_ids (L : List LedgerRow) (p : LedgerRow → Bool) (δ : Int) :
    (condAdd L p δ).map LedgerRow.id = L.map LedgerRow.id := by
  simp only [condAdd, List.map_map]
  apply List.map_congr_left
  intro r _
  by_cases h : p r = true
  · simp [h]
  · have h' : p r = false := by revert h; cases p r <;> simp
    simp [h']

theorem find?_id_condAdd (L : List LedgerRow) (p : LedgerRow → Bool) (rid : Nat) (δ : Int) :
    (condAdd L p δ).find? (fun x => x.id == rid) =
      (L.find? (fun x => x.id == rid)).map
        (fun r => if p r then { r with quantity := r.quantity + δ } else r) := by
  apply find?_map_congr
  intro x _
  by_cases h : p x = true
  · simp [h]
  · have h' : p x = false := by revert h; cases p x <;> simp
    simp [h']

example :
    (salesCreate
      { ledger := [⟨0, "MR1", "Main", "widget", 5⟩],
        sales := [], saleLines := [], purchases := [], purchaseLines := [],
        transfers := [], transferLines := [], customers := ["c1"],
        inventories := ["Main"], vendors := [], catalog := [], nextId := 1 }
      { bill_id := "B1", customer_id := "c1", inventory := "Main",
        shipping_address := "a", status := "processing",
        products := [⟨"Widget", 2, 3, none⟩] }).1 = 201 := by decide

/-- C9: in sale update and purchase update, a supplied adjustment equal to 0
is JavaScript-falsy, so it behaves exactly as if no adjustment were supplied:
the bound check is skipped and the previously stored adjustment (not 0) is
used when recomputing the stored header total, so a nonzero adjustment can
never be cleared back to zero through an update. -/
theorem zero_adjustment_treated_as_absent (st : DB) (billId mrId : String)
    (sreq : SaleUpdReq) (preq : PurchaseUpdReq) :
    salesUpdateByBillId st billId { sreq with adjustment := some 0 } =
      salesUpdateByBillId st billId { sreq with adjustment := none } ∧
    purchasesUpdateByMrId st mrId { preq with adjustment := some 0 } =
      purchasesUpdateByMrId st mrId { preq with adjustment := none } := by
  constructor
  · unfold salesUpdateByBillId
    cases st.sales.find? (fun s => imatch s.bill_id billId) with
    | none => rfl
    | some ex => simp [adjTruthy]
  · unfold purchasesUpdateByMrId
    cases st.purchases.find? (fun pu => imatch pu.mr_id mrId) with
    | none => rfl
    | some ex => simp [adjTruthy]

/-- C7: creating a sale whose bill_id already names an existing sale
(compared case-insensitively) returns HTTP 409 and performs no writes to any
table.  The nonempty-products hypothesis restricts the statement to requests
that pass the input validation run before the workflow. -/
theorem duplicate_bill_conflict (st : DB) (req : SaleReq)
    (hne : req.products ≠ [])
    (hdup : ∃ s ∈ st.sales, imatch s.bill_id req.bill_id = true) :
    salesCreate st req = (409, st) := by
  have h1 : req.products.isEmpty = false := by
    cases hp : req.products with
    | nil => exact absurd hp hne
    | cons a l => rfl
  have h2 : (st.sales.find? fun s => imatch s.bill_id req.bill_id).isSome = true := by
    rw [List.find?_isSome]
    exact hdup
  simp [salesCreate, h1, h2]

theorem duplicate_bill_conflict_witness :
    salesCreate dbAdj { oneLineSaleReq "prodA" 2 1 with bill_id := "b1" } =
      (409, dbAdj) :=
  duplicate_bill_conflict _ _ (by decide)
    ⟨⟨"B1", "c1", "addr", 5, 95, "processing"⟩, by decide, by decide⟩

/-- C8: sale-creation ledger matching on inventory and product names is
case-insensitive: a line requesting product "Widget" in inventory "Main"
matches a ledger row stored as product "widget" in inventory "Main", and the
creation succeeds and decrements that row, provided the row's quantity is at
least the requested quantity. -/
theorem case_insensitive_sale_match (q qty : Int) (u : Rat) (h : q ≤ qty) :
    (salesCreate (dbWidget qty) (oneLineSaleReq "Widget" q u)).1 = 201 ∧
    (salesCreate (dbWidget qty) (oneLineSaleReq "Widget" q u)).2.ledger =
      [⟨0, "MR1", "Main", "widget", qty - q⟩] := by
  have hm : imatch "widget" "Widget" = true := by decide
  have hi : imatch "Main" "Main" = true := by decide
  have hq : decide (q ≤ qty) = true := decide_eq_true h
  simp [salesCreate, dbWidget, oneLineSaleReq, inventoryExists, sellLoop,
    salePred, updRow, hm, hi, hq, List.find?_cons, emptyDB]
  omega

theorem case_insensitive_sale_match_witness :
    (salesCreate (dbWidget 5) (oneLineSaleReq "Widget" 2 3)).1 = 201 ∧
    (salesCreate (dbWidget 5) (oneLineSaleReq "Widget" 2 3)).2.ledger =
      [⟨0, "MR1", "Main", "widget", 5 - 2⟩] :=
  case_insensitive_sale_match 2 5 3 (by decide)

/-- C3 counterexample: on a sale whose stored adjustment is 5 and whose
current line-total sum is 100, an update supplying adjustment 0 is in range,
so the claim predicts success with stored header total 100 - 0 = 100; the
code instead succeeds storing 95 (it reuses the stored adjustment 5). -/
theorem adjustment_zero_update_counterexample :
    (salesUpdateByBillId dbAdj "B1" (adjOnlySaleUpd (some 0))).1 = 200 ∧
    (salesUpdateByBillId dbAdj "B1" (adjOnlySaleUpd (some 0))).2.sales =
      [⟨"B1", "c1", "addr", 5, 95, "processing"⟩] ∧
    ¬ ((95 : Rat) = 100 - 0) := by
  have hb : imatch "B1" "B1" = true := by decide
  refine ⟨?_, ?_, by norm_num⟩ <;>
    simp [salesUpdateByBillId, dbAdj, emptyDB, adjOnlySaleUpd, adjTruthy,
      calculateSalePrice, hb, List.find?_cons] <;> norm_num

/-- C3 amended: for every sale update and purchase update supplying a
nonzero adjustment (a supplied adjustment of exactly 0 is falsy and behaves
as if absent, see the zero-adjustment theorem), the operation fails with
HTTP 400 and writes nothing when the adjustment is < 0 or greater than the
freshly computed sum of the order's current line totals; otherwise it
succeeds and stores header total = that computed sum - the adjustment. -/
theorem adjustment_bound_on_update (st : DB) (billId mrId : String) (a : Rat)
    (exS : SaleHeader) (exP : PurchaseHeader) (ha : a ≠ 0)
    (hfs : st.sales.find? (fun s => imatch s.bill_id billId) = some exS)
    (hfp : st.purchases.find? (fun pu => imatch pu.mr_id mrId) = some exP) :
    ((a < 0 ∨ calculateSalePrice st billId < a) →
        salesUpdateByBillId st billId (adjOnlySaleUpd (some a)) = (400, st)) ∧
    (0 ≤ a → a ≤ calculateSalePrice st billId →
        (salesUpdateByBillId st billId (adjOnlySaleUpd (some a))).1 = 200 ∧
        ((salesUpdateByBillId st billId (adjOnlySaleUpd (some a))).2.sales.find?
            (fun s => imatch s.bill_id billId)) =
          some { exS with adjustment := a, total_amount := calculateSalePrice st billId - a }) ∧
    ((a < 0 ∨ calculatePurchasePrice st mrId < a) →
        purchasesUpdateByMrId st mrId (adjOnlyPurchaseUpd (some a)) = (400, st)) ∧
    (0 ≤ a → a ≤ calculatePurchasePrice st mrId →
        (purchasesUpdateByMrId st mrId (adjOnlyPurchaseUpd (some a))).1 = 200 ∧
        ((purchasesUpdateByMrId st mrId
            (adjOnlyPurchaseUpd (some a))).2.purchases.find?
            (fun pu => imatch pu.mr_id mrId)) =
          some { exP with adjustment := a, total_price := calculatePurchasePrice st mrId - a }) := by
  have hpeS : imatch exS.bill_id billId = true := by
    have h := List.find?_some hfs
    simpa using h
  have hpeP : imatch exP.mr_id mrId = true := by
    have h := List.find?_some hfp
    simpa using h
  have keyS : salesUpdateByBillId st billId (adjOnlySaleUpd (some a)) =
      if a < 0 ∨ calculateSalePrice st billId < a then (400, st)
      else (200, { st with sales := st.sales.map fun s => if imatch s.bill_id billId then { exS with adjustment := a, total_amount := calculateSalePrice st billId - a } else s }) := by
    unfold salesUpdateByBillId
    rw [hfs]
    simp [adjOnlySaleUpd, adjTruthy, ha]
  have keyP : purchasesUpdateByMrId st mrId (adjOnlyPurchaseUpd (some a)) =
      if a < 0 ∨ calculatePurchasePrice st mrId < a then (400, st)
      else (200, { st with
        purchases := st.purchases.map fun pu => if imatch pu.mr_id mrId then { exP with adjustment := a, total_price := calculatePurchasePrice st mrId - a } else pu
        ledger := st.ledger.map fun r => if imatch r.mr_id mrId then { r with inventory := exP.inventory } else r }) := by
    unfold purchasesUpdateByMrId
    rw [hfp]
    simp [adjOnlyPurchaseUpd, adjTruthy, ha]
  refine ⟨?_, ?_, ?_, ?_⟩
  · intro hbad
    rw [keyS, if_pos hbad]
  · intro h0 h1
    have hok : ¬ (a < 0 ∨ calculateSalePrice st billId < a) := by
      push_neg
      exact ⟨h0, h1⟩
    rw [keyS, if_neg hok]
    refine ⟨rfl, ?_⟩
    have hmap := find?_map_congr
      (fun s => if imatch s.bill_id billId then
        { exS with adjustment := a, total_amount := calculateSalePrice st billId - a }
      else s)
      (fun s => imatch s.bill_id billId) st.sales ?_
    · rw [hmap, hfs]
      simp [hpeS]
    · intro s _
      by_cases hs : imatch s.bill_id billId = true
      · simp [hs, hpeS]
      · have hs' : imatch s.bill_id billId = false := by
          revert hs; cases imatch s.bill_id billId <;> simp
        simp [hs']
  · intro hbad
    rw [keyP, if_pos hbad]
  · intro h0 h1
    have hok : ¬ (a < 0 ∨ calculatePurchasePrice st mrId < a) := by
      push_neg
      exact ⟨h0, h1⟩
    rw [keyP, if_neg hok]
    refine ⟨rfl, ?_⟩
    have hmap := find?_map_congr
      (fun pu => if imatch pu.mr_id mrId then
        { exP with adjustment := a, total_price := calculatePurchasePrice st mrId - a }
      else pu)
      (fun pu => imatch pu.mr_id mrId) st.purchases ?_
    · rw [hmap, hfp]
      simp [hpeP]
    · intro pu _
      by_cases hs : imatch pu.mr_id mrId = true
      · simp [hs, hpeP]
      · have hs' : imatch pu.mr_id mrId = false := by
          revert hs; cases imatch pu.mr_id mrId <;> simp
        simp [hs']

theorem adjustment_bound_on_update_witness :
    (salesUpdateByBillId dbAdj "B1" (adjOnlySaleUpd (some 30))).1 = 200 ∧
    ((salesUpdateByBillId dbAdj "B1" (adjOnlySaleUpd (some 30))).2.sales.find?
        (fun s => imatch s.bill_id "B1")) =
      some ⟨"B1", "c1", "addr", 30, 70, "processing"⟩ ∧
    purchasesUpdateByMrId dbAdj "MR1" (adjOnlyPurchaseUpd (some 150)) =
      (400, dbAdj) := by
  have h := adjustment_bound_on_update dbAdj "B1" "MR1" 30
    ⟨"B1", "c1", "addr", 5, 95, "processing"⟩ ⟨"MR1", "V", "Main", 5, 95⟩
    (by norm_num) (by decide) (by decide)
  have h150 := adjustment_bound_on_update dbAdj "B1" "MR1" 150
    ⟨"B1", "c1", "addr", 5, 95, "processing"⟩ ⟨"MR1", "V", "Main", 5, 95⟩
    (by norm_num) (by decide) (by decide)
  have hcs : calculateSalePrice dbAdj "B1" = 100 := by
    simp [calculateSalePrice, dbAdj, emptyDB, imatch_refl]
  have hcp : calculatePurchasePrice dbAdj "MR1" = 100 := by
    simp [calculatePurchasePrice, dbAdj, emptyDB, imatch_refl]
  have hs := h.2.1 (by norm_num) (by rw [hcs]; norm_num)
  rw [hcs] at hs
  have hp := h150.2.2.1 (by rw [hcp]; norm_num)
  refine ⟨hs.1, ?_, hp⟩
  rw [hs.2]
  norm_num

theorem salePred_product {inv : String} {l : SaleReqLine} {r : LedgerRow}
    (h : salePred inv l r = true) : lowerStr r.product = lowerStr l.product := by
  simp [salePred, imatch] at h
  exact h.1.2

theorem find?_salePred_updRow {L : List LedgerRow} {r0 : LedgerRow}
    (hnd : (L.map LedgerRow.id).Nodup) (hr0 : r0 ∈ L)
    (l : SaleReqLine) (inv : String) (δ : Int)
    (hne : lowerStr l.product ≠ lowerStr r0.product) :
    (updRow L r0.id δ).find? (salePred inv l) = L.find? (salePred inv l) := by
  apply find?_map_eq_self
  · intro x hx
    by_cases hxid : x.id = r0.id
    · have hxr : x = r0 := ledger_id_inj hnd hx hr0 hxid
      have him : imatch x.product l.product = false := by
        cases hb : imatch x.product l.product
        · rfl
        · exact absurd (by rw [hxr] at hb; exact (imatch_iff.mp hb).symm) hne
      simp [salePred, hxid, him]
    · simp [hxid]
  · intro x hx hpx
    by_cases hxid : x.id = r0.id
    · have hxr : x = r0 := ledger_id_inj hnd hx hr0 hxid
      have him : imatch x.product l.product = true := by
        simp [salePred] at hpx
        exact hpx.1.2
      exact absurd (by rw [hxr] at him; exact (imatch_iff.mp him).symm) hne
    · simp [hxid]

theorem sellLoop_frame (bill inv : String) :
    ∀ (ls : List SaleReqLine) (L : List LedgerRow) (acc : List SaleLine)
      (rid : Nat) (X : LedgerRow) (L2 : List LedgerRow) (acc2 : List SaleLine),
      (L.map LedgerRow.id).Nodup →
      L.find? (fun x => x.id == rid) = some X →
      (∀ l ∈ ls, lowerStr l.product ≠ lowerStr X.product) →
      sellLoop bill inv L acc ls = some (L2, acc2) →
      L2.find? (fun x => x.id == rid) = some X := by
  intro ls
  induction ls with
  | nil =>
    intro L acc rid X L2 acc2 _ hfind _ hloop
    simp only [sellLoop, Option.some.injEq, Prod.mk.injEq] at hloop
    rw [← hloop.1]
    exact hfind
  | cons l0 ls ih =>
    intro L acc rid X L2 acc2 hnd hfind hne hloop
    cases hfr : L.find? (salePred inv l0) with
    | none =>
      simp only [sellLoop, hfr] at hloop
      exact Option.noConfusion hloop
    | some r0 =>
      simp only [sellLoop, hfr] at hloop
      have hr0L : r0 ∈ L := List.mem_of_find?_eq_some hfr
      have hpr0 : salePred inv l0 r0 = true := List.find?_some hfr
      have hXL : X ∈ L := List.mem_of_find?_eq_some hfind
      have hXid : X.id = rid := by simpa using List.find?_some hfind
      have hrid : r0.id ≠ rid := by
        intro hEq
        have hrX : r0 = X := ledger_id_inj hnd hr0L hXL (by rw [hEq, hXid])
        apply hne l0 (List.mem_cons_self l0 ls)
        rw [← salePred_product hpr0, hrX]
      have hfind2 : (updRow L r0.id (-l0.quantity)).find? (fun x => x.id == rid) =
          some X := by
        rw [find?_id_updRow, hfind]
        have : ¬ (X.id = r0.id) := by
          rw [hXid]
          exact fun h => hrid h.symm
        simp [this]
      exact ih (updRow L r0.id (-l0.quantity)) _ rid X L2 acc2
        (updRow_nodup _ _ hnd) hfind2
        (fun l2 hl2 => hne l2 (List.mem_cons_of_mem l0 hl2)) hloop

theorem sellLoop_decrements (bill inv : String) :
    ∀ (ls : List SaleReqLine) (L : List LedgerRow) (acc : List SaleLine)
      (L2 : List LedgerRow) (acc2 : List SaleLine),
      (L.map LedgerRow.id).Nodup →
      ls.Pairwise (fun l1 l2 => lowerStr l1.product ≠ lowerStr l2.product) →
      sellLoop bill inv L acc ls = some (L2, acc2) →
      ∀ l ∈ ls, ∃ r, L.find? (salePred inv l) = some r ∧
        L2.find? (fun x => x.id == r.id) =
          some { r with quantity := r.quantity - l.quantity } := by
  intro ls
  induction ls with
  | nil =>
    intro L acc L2 acc2 _ _ _ l hl
    cases hl
  | cons l0 ls ih =>
    intro L acc L2 acc2 hnd hpw hloop l hl
    rw [List.pairwise_cons] at hpw
    cases hfr : L.find? (salePred inv l0) with
    | none =>
      simp only [sellLoop, hfr] at hloop
      exact Option.noConfusion hloop
    | some r0 =>
      simp only [sellLoop, hfr] at hloop
      have hr0L : r0 ∈ L := List.mem_of_find?_eq_some hfr
      have hpr0 : salePred inv l0 r0 = true := List.find?_some hfr
      have hnd2 := updRow_nodup r0.id (-l0.quantity) hnd
      rcases List.mem_cons.mp hl with rfl | hl'
      · refine ⟨r0, hfr, ?_⟩
        have hfind2 : (updRow L r0.id (-l.quantity)).find? (fun x => x.id == r0.id) =
            some { r0 with quantity := r0.quantity - l.quantity } := by
          rw [find?_id_updRow, find?_id_of_nodup hnd hr0L]
          have : r0.quantity + -l.quantity = r0.quantity - l.quantity := by omega
          simp [this]
        exact sellLoop_frame bill inv ls _ _ r0.id _ L2 acc2 hnd2 hfind2
          (fun l2 hl2 h => hpw.1 l2 hl2
            (by rw [← salePred_product hpr0]; exact h.symm)) hloop
      · have hneq : lowerStr l.product ≠ lowerStr r0.product := by
          rw [salePred_product hpr0]
          exact fun h => hpw.1 l hl' h.symm
        have hfeq := find?_salePred_updRow hnd hr0L l inv (-l0.quantity) hneq
        obtain ⟨r, hr1, hr2⟩ := ih (updRow L r0.id (-l0.quantity)) _ L2 acc2
          hnd2 hpw.2 hloop l hl'
        exact ⟨r, by rw [← hfeq]; exact hr1, hr2⟩

theorem sellLoop_insufficient (bill inv : String) :
    ∀ (ls : List SaleReqLine) (L : List LedgerRow) (acc : List SaleLine),
      (∀ l ∈ ls, 0 < l.quantity) →
      (∃ l ∈ ls, ∀ r ∈ L, imatch r.inventory inv = true →
        imatch r.product l.product = true → r.quantity < l.quantity) →
      sellLoop bill inv L acc ls = none := by
  intro ls
  induction ls with
  | nil =>
    intro L acc _ hex
    obtain ⟨l, hl, _⟩ := hex
    cases hl
  | cons l0 ls ih =>
    intro L acc hpos hex
    cases hfr : L.find? (salePred inv l0) with
    | none => simp only [sellLoop, hfr]
    | some r0 =>
      simp only [sellLoop, hfr]
      obtain ⟨l, hl, hins⟩ := hex
      rcases List.mem_cons.mp hl with rfl | hl'
      · exfalso
        have hpr0 : salePred inv l r0 = true := List.find?_some hfr
        have hr0L : r0 ∈ L := List.mem_of_find?_eq_some hfr
        simp [salePred] at hpr0
        have := hins r0 hr0L hpr0.1.1 hpr0.1.2
        omega
      · apply ih
        · exact fun l2 hl2 => hpos l2 (List.mem_cons_of_mem l0 hl2)
        · refine ⟨l, hl', ?_⟩
          intro r2 hr2 hm1 hm2
          simp only [updRow, List.mem_map] at hr2
          obtain ⟨x, hx, hfx⟩ := hr2
          subst hfx
          have hq0 : 0 < l0.quantity := hpos l0 (List.mem_cons_self l0 ls)
          by_cases hxid : x.id = r0.id
          · simp only [hxid, if_pos] at hm1 hm2 ⊢
            have := hins x hx (by simpa using hm1) (by simpa using hm2)
            omega
          · simp only [if_neg hxid] at hm1 hm2 ⊢
            exact hins x hx hm1 hm2

/-- C1 corrected: for every successful sale creation whose lines name
pairwise distinct products (case-insensitively), every line's matched ledger
row ends at its pre-commit quantity minus that line's requested quantity
(with duplicate products the same row is decremented once per line, which
refutes the claim as stated); and if any line's requested quantity exceeds
the quantity of every case-insensitively matching ledger row, then nothing
at all is persisted for any line of the request. -/
theorem sale_create_decrement_and_atomic (st : DB) (req : SaleReq) (st2 : DB) :
    ((st.ledger.map LedgerRow.id).Nodup →
      req.products.Pairwise
        (fun l1 l2 => lowerStr l1.product ≠ lowerStr l2.product) →
      salesCreate st req = (201, st2) →
      ∀ l ∈ req.products, ∃ r,
        st.ledger.find? (salePred req.inventory l) = some r ∧
        st2.ledger.find? (fun x => x.id == r.id) =
          some { r with quantity := r.quantity - l.quantity }) ∧
    ((∀ l ∈ req.products, 0 < l.quantity) →
      (∃ l ∈ req.products, ∀ r ∈ st.ledger,
        imatch r.inventory req.inventory = true →
        imatch r.product l.product = true → r.quantity < l.quantity) →
      (salesCreate st req).2 = st) := by
  constructor
  · intro hnd hpw h
    unfold salesCreate at h
    split at h
    · simp at h
    · split at h
      · simp at h
      · split at h
        · simp at h
        · split at h
          · simp at h
          · split at h
            · simp at h
            · next L acc heq =>
              have h2 : st2.ledger = L := by
                have := (Prod.mk.injEq _ _ _ _).mp h
                rw [← this.2]
              rw [h2]
              exact sellLoop_decrements req.bill_id req.inventory
                req.products st.ledger [] L acc hnd hpw heq
  · intro hpos hins
    unfold salesCreate
    split
    · rfl
    · split
      · rfl
      · split
        · rfl
        · split
          · rfl
          · split
            · rfl
            · next L acc heq =>
              exfalso
              rw [sellLoop_insufficient req.bill_id req.inventory
                req.products st.ledger [] hpos hins] at heq
              exact Option.noConfusion heq

/-- C1 counterexample: a request with two lines for the same product (2 and
3 units of "prodA" against a row holding 10) succeeds, and the matched row
ends at 5, which is neither 10 - 2 nor 10 - 3, refuting the per-line
equation of the claim as stated. -/
theorem sale_create_decrement_counterexample :
    (salesCreate dbProdA twoLineSaleReq).1 = 201 ∧
    ((salesCreate dbProdA twoLineSaleReq).2.ledger.find?
        (fun x => x.id == 0)).map LedgerRow.quantity = some 5 ∧
    ¬ ((5 : Int) = 10 - 2) ∧ ¬ ((5 : Int) = 10 - 3) := by
  refine ⟨by decide, by decide, by decide, by decide⟩

theorem sale_create_decrement_and_atomic_witness :
    ((salesCreate dbTotals saleReqTotals).2.ledger.find?
        (fun x => x.id == 0)) =
      some { id := 0, mr_id := "MRX", inventory := "Main", product := "proda",
             quantity := 50 - 3 } ∧
    (salesCreate dbProdA (oneLineSaleReq "prodA" 20 1)).2 = dbProdA := by
  constructor
  · have hc : salesCreate dbTotals saleReqTotals =
        (201, (salesCreate dbTotals saleReqTotals).2) := by
      have h1 : (salesCreate dbTotals saleReqTotals).1 = 201 := by decide
      exact Prod.ext h1 rfl
    have h := (sale_create_decrement_and_atomic dbTotals saleReqTotals
        (salesCreate dbTotals saleReqTotals).2).1 (by decide) (by decide) hc
        ⟨"ProdA", 3, 4, some 50⟩ (by decide)
    obtain ⟨r, hr1, hr2⟩ := h
    have hr : r = ⟨0, "MRX", "Main", "proda", 50⟩ := by
      have : dbTotals.ledger.find?
          (salePred saleReqTotals.inventory ⟨"ProdA", 3, 4, some 50⟩) =
          some ⟨0, "MRX", "Main", "proda", 50⟩ := by decide
      rw [this] at hr1
      exact (Option.some.injEq _ _).mp hr1.symm
    subst hr
    exact hr2
  · exact (sale_create_decrement_and_atomic dbProdA
      (oneLineSaleReq "prodA" 20 1) dbProdA).2 (by decide)
      ⟨⟨"prodA", 20, 1, none⟩, by decide, by decide⟩

/-- C4 amended: a sale creation that passes the pre-transaction checks but
has some line whose requested quantity exceeds the quantity of every
case-insensitively matching ledger row fails with HTTP 500 (the generic
unexpected-error status produced by the throw inside the transaction), with
no writes; 404 is only produced by the pre-transaction customer and
inventory checks. -/
theorem insufficient_stock_http_500 (st : DB) (req : SaleReq)
    (hne : req.products.isEmpty = false)
    (hdup : (st.sales.find? fun s => imatch s.bill_id req.bill_id) = none)
    (hcust : st.customers.contains req.customer_id = true)
    (hinv : inventoryExists st req.inventory = true)
    (hpos : ∀ l ∈ req.products, 0 < l.quantity)
    (hins : ∃ l ∈ req.products, ∀ r ∈ st.ledger,
      imatch r.inventory req.inventory = true →
      imatch r.product l.product = true → r.quantity < l.quantity) :
    salesCreate st req = (500, st) := by
  unfold salesCreate
  rw [sellLoop_insufficient req.bill_id req.inventory req.products st.ledger []
    hpos hins]
  have hcust2 : req.customer_id ∈ st.customers := by simpa using hcust
  simp [hne, hdup, hcust2, hinv]

/-- C4 counterexample: requesting 20 units of "prodA" with only 10 on hand
at "Main" (all referenced entities present) fails with HTTP 500, not the
404 the claim asserts. -/
theorem insufficient_stock_counterexample :
    (salesCreate dbProdA (oneLineSaleReq "prodA" 20 1)).1 = 500 ∧
    ¬ ((salesCreate dbProdA (oneLineSaleReq "prodA" 20 1)).1 = 404) := by
  exact ⟨by decide, by decide⟩

theorem insufficient_stock_http_500_witness :
    salesCreate dbProdA (oneLineSaleReq "prodA" 20 1) = (500, dbProdA) :=
  insufficient_stock_http_500 dbProdA (oneLineSaleReq "prodA" 20 1)
    (by decide) (by decide) (by decide) (by decide) (by decide)
    ⟨⟨"prodA", 20, 1, none⟩, by decide, by decide⟩

theorem updRow_not_present {L : List LedgerRow} {rid : Nat} (δ : Int)
    (h : ∀ b ∈ L, b.id ≠ rid) : updRow L rid δ = L := by
  induction L with
  | nil => rfl
  | cons a L ih =>
    simp only [updRow, List.map_cons]
    rw [if_neg (h a (List.mem_cons_self a L))]
    have htail : updRow L rid δ = L :=
      ih fun b hb => h b (List.mem_cons_of_mem a hb)
    rw [show (List.map (fun r => if r.id = rid then
      { r with quantity := r.quantity + δ } else r) L) = updRow L rid δ from rfl]
    rw [htail]

theorem keySum_append (m p : String) (L1 L2 : List LedgerRow) :
    keySum m p (L1 ++ L2) = keySum m p L1 + keySum m p L2 := by
  induction L1 with
  | nil => simp [keySum]
  | cons a L ih =>
    rw [List.cons_append]
    rw [show keySum m p (a :: (L ++ L2)) =
      (if keyMatch m p a then a.quantity else 0) + keySum m p (L ++ L2) from rfl]
    rw [ih]
    rw [show keySum m p (a :: L) =
      (if keyMatch m p a then a.quantity else 0) + keySum m p L from rfl]
    omega

theorem keySum_updRow (m p : String) {L : List LedgerRow} {r : LedgerRow}
    (hnd : (L.map LedgerRow.id).Nodup) (hr : r ∈ L) (δ : Int) :
    keySum m p (updRow L r.id δ) =
      keySum m p L + (if keyMatch m p r then δ else 0) := by
  induction L with
  | nil => cases hr
  | cons a L ih =>
    rw [List.map_cons, List.nodup_cons] at hnd
    rcases List.mem_cons.mp hr with rfl | hrL
    · have hnone : ∀ b ∈ L, b.id ≠ r.id := by
        intro b hb hbid
        exact hnd.1 (hbid ▸ List.mem_map_of_mem LedgerRow.id hb)
      have hupd : updRow L r.id δ = L := updRow_not_present δ hnone
      simp only [updRow, List.map_cons, if_pos]
      rw [show (List.map (fun x => if x.id = r.id then
        { x with quantity := x.quantity + δ } else x) L) = updRow L r.id δ from rfl]
      rw [hupd]
      have hkm : keyMatch m p { r with quantity := r.quantity + δ } =
          keyMatch m p r := rfl
      simp only [keySum, hkm]
      by_cases hk : keyMatch m p r = true
      · simp [hk]
        omega
      · have hk2 : keyMatch m p r = false := by
          revert hk; cases keyMatch m p r <;> simp
        simp [hk2]
    · have haid : a.id ≠ r.id := by
        intro h
        exact hnd.1 (h ▸ List.mem_map_of_mem LedgerRow.id hrL)
      simp only [updRow, List.map_cons]
      rw [if_neg haid]
      rw [show (List.map (fun x => if x.id = r.id then
        { x with quantity := x.quantity + δ } else x) L) = updRow L r.id δ from rfl]
      simp only [keySum, ih hnd.2 hrL]
      omega

theorem keyMatch_congr {r : LedgerRow} {mr pr : String}
    (h1 : imatch r.mr_id mr = true) (h2 : imatch r.product pr = true)
    (m p : String) :
    keyMatch m p r = (imatch mr m && imatch pr p) := by
  unfold keyMatch
  rw [imatch_congr m (imatch_iff.mp h1), imatch_congr p (imatch_iff.mp h2)]

theorem updRow_bound {L : List LedgerRow} {nid : Nat} {rid : Nat} {δ : Int}
    (hbound : ∀ r ∈ L, r.id < nid) : ∀ r ∈ updRow L rid δ, r.id < nid := by
  intro r hr
  simp only [updRow, List.mem_map] at hr
  obtain ⟨x, hx, hfx⟩ := hr
  subst hfx
  by_cases hxid : x.id = rid
  · simp only [hxid, if_pos]
    rw [← hxid]
    exact hbound x hx
  · simp only [if_neg hxid]
    exact hbound x hx

theorem transferLoop_conserve (trf src dst : String) :
    ∀ (ls : List TransferReqLine) (L : List LedgerRow) (nid : Nat)
      (acc : List TransferLine) (L2 : List LedgerRow) (nid2 : Nat)
      (acc2 : List TransferLine),
      (L.map LedgerRow.id).Nodup →
      (∀ r ∈ L, r.id < nid) →
      transferLoop trf src dst L nid acc ls = some (L2, nid2, acc2) →
      ∀ m p, keySum m p L2 = keySum m p L := by
  intro ls
  induction ls with
  | nil =>
    intro L nid acc L2 nid2 acc2 _ _ hloop m p
    simp only [transferLoop, Option.some.injEq, Prod.mk.injEq] at hloop
    rw [← hloop.1]
  | cons l ls ih =>
    intro L nid acc L2 nid2 acc2 hnd hbound hloop m p
    cases hfs : L.find? (srcPred src l) with
    | none =>
      simp only [transferLoop, hfs] at hloop
      exact Option.noConfusion hloop
    | some s =>
      have hsL : s ∈ L := List.mem_of_find?_eq_some hfs
      have hps : srcPred src l s = true := List.find?_some hfs
      have hs_mr : imatch s.mr_id l.mr_id = true := by
        simp [srcPred] at hps
        exact hps.1.1.2
      have hs_pr : imatch s.product l.product = true := by
        simp [srcPred] at hps
        exact hps.1.2
      have hkS : keyMatch m p s = (imatch l.mr_id m && imatch l.product p) :=
        keyMatch_congr hs_mr hs_pr m p
      cases hfd : L.find? (dstPred dst l) with
      | some d =>
        simp only [transferLoop, hfs, hfd] at hloop
        have hdL : d ∈ L := List.mem_of_find?_eq_some hfd
        have hpd : dstPred dst l d = true := List.find?_some hfd
        have hd_mr : imatch d.mr_id l.mr_id = true := by
          simp [dstPred] at hpd
          exact hpd.1.2
        have hd_pr : imatch d.product l.product = true := by
          simp [dstPred] at hpd
          exact hpd.2
        have hnd1 := updRow_nodup s.id (-l.quantity) hnd
        have hb1 : ∀ r ∈ updRow L s.id (-l.quantity), r.id < nid :=
          updRow_bound hbound
        set d2 : LedgerRow := if d.id = s.id then
          { d with quantity := d.quantity + -l.quantity } else d with hd2
        have hd2L : d2 ∈ updRow L s.id (-l.quantity) := by
          rw [hd2]
          exact List.mem_map_of_mem _ hdL
        have hd2id : d2.id = d.id := by
          rw [hd2]
          by_cases hc : d.id = s.id
          · simp [hc]
          · simp [hc]
        have hkD : keyMatch m p d2 = (imatch l.mr_id m && imatch l.product p) := by
          have hm2 : imatch d2.mr_id l.mr_id = true := by
            rw [hd2]
            by_cases hc : d.id = s.id
            · simpa [hc] using hd_mr
            · simpa [hc] using hd_mr
          have hp2 : imatch d2.product l.product = true := by
            rw [hd2]
            by_cases hc : d.id = s.id
            · simpa [hc] using hd_pr
            · simpa [hc] using hd_pr
          exact keyMatch_congr hm2 hp2 m p
        have k2 : keySum m p (updRow (updRow L s.id (-l.quantity)) d2.id l.quantity) =
            keySum m p (updRow L s.id (-l.quantity)) +
              (if keyMatch m p d2 then l.quantity else 0) :=
          keySum_updRow m p hnd1 hd2L l.quantity
        have k1 : keySum m p (updRow L s.id (-l.quantity)) =
            keySum m p L + (if keyMatch m p s then -l.quantity else 0) :=
          keySum_updRow m p hnd hsL (-l.quantity)
        rw [hd2id] at k2
        have hrec := ih (updRow (updRow L s.id (-l.quantity)) d.id l.quantity)
          nid _ L2 nid2 acc2 (updRow_nodup _ _ hnd1) (updRow_bound hb1) hloop m p
        rw [hrec, k2, k1, hkS, hkD]
        by_cases hb : (imatch l.mr_id m && imatch l.product p) = true
        · simp [hb]
        · have hb2 : (imatch l.mr_id m && imatch l.product p) = false := by
            revert hb; cases (imatch l.mr_id m && imatch l.product p) <;> simp
          simp [hb2]
      | none =>
        simp only [transferLoop, hfs, hfd] at hloop
        have hnd1 := updRow_nodup s.id (-l.quantity) hnd
        have hb1 : ∀ r ∈ updRow L s.id (-l.quantity), r.id < nid :=
          updRow_bound hbound
        have hnewid : nid ∉ (updRow L s.id (-l.quantity)).map LedgerRow.id := by
          rw [updRow_ids]
          intro hmem
          simp only [List.mem_map] at hmem
          obtain ⟨x, hx, hxid⟩ := hmem
          have := hbound x hx
          omega
        have hnd2 : (((updRow L s.id (-l.quantity)) ++
            [(⟨nid, l.mr_id, dst, l.product, l.quantity⟩ : LedgerRow)]).map
              LedgerRow.id).Nodup := by
          rw [List.map_append]
          rw [List.nodup_append]
          refine ⟨hnd1, List.nodup_singleton nid, ?_⟩
          intro x hx hx2
          simp at hx2
          rw [hx2] at hx
          exact hnewid hx
        have hb2 : ∀ r ∈ (updRow L s.id (-l.quantity)) ++
            [(⟨nid, l.mr_id, dst, l.product, l.quantity⟩ : LedgerRow)],
            r.id < nid + 1 := by
          intro r hr
          rcases List.mem_append.mp hr with hr1 | hr2
          · have := hb1 r hr1
            omega
          · simp at hr2
            simp [hr2]
        have hrec := ih _ (nid + 1) _ L2 nid2 acc2 hnd2 hb2 hloop m p
        have k1 : keySum m p (updRow L s.id (-l.quantity)) =
            keySum m p L + (if keyMatch m p s then -l.quantity else 0) :=
          keySum_updRow m p hnd hsL (-l.quantity)
        have happ := keySum_append m p (updRow L s.id (-l.quantity))
          [⟨nid, l.mr_id, dst, l.product, l.quantity⟩]
        have hknew : keyMatch m p (⟨nid, l.mr_id, dst, l.product, l.quantity⟩ :
            LedgerRow) = (imatch l.mr_id m && imatch l.product p) := rfl
        have hsing : keySum m p [⟨nid, l.mr_id, dst, l.product, l.quantity⟩] =
            if (imatch l.mr_id m && imatch l.product p) then l.quantity else 0 := by
          simp only [keySum, hknew]
          omega
        rw [hrec, happ, k1, hsing, hkS]
        by_cases hb : (imatch l.mr_id m && imatch l.product p) = true
        · simp [hb]
        · have hbf : (imatch l.mr_id m && imatch l.product p) = false := by
            revert hb; cases (imatch l.mr_id m && imatch l.product p) <;> simp
          simp [hbf]

/-- C2: for every successful transfer creation, the system-wide ledger
quantity of every case-insensitive (mr_id, product) key, summed across all
inventory locations, is unchanged from before the commit to after it: each
line decrements its matched source row by the line quantity and increments
the destination row by exactly that quantity, or creates it with exactly
that quantity when absent, so the per-key sum is conserved. -/
theorem transfer_create_conserves (st : DB) (req : TransferReq) (st2 : DB)
    (hnd : (st.ledger.map LedgerRow.id).Nodup)
    (hbound : ∀ r ∈ st.ledger, r.id < st.nextId)
    (h : transfersCreate st req = (201, st2)) :
    ∀ m p, keySum m p st2.ledger = keySum m p st.ledger := by
  intro m p
  unfold transfersCreate at h
  split at h
  · simp at h
  · split at h
    · simp at h
    · split at h
      · simp at h
      · split at h
        · simp at h
        · split at h
          · simp at h
          · next L nid acc heq =>
            have h2 : st2.ledger = L := by
              have := (Prod.mk.injEq _ _ _ _).mp h
              rw [← this.2]
            rw [h2]
            exact transferLoop_conserve req.trf_id req.source_inventory
              req.destination_inventory req.products st.ledger st.nextId []
              L nid acc hnd hbound heq m p

theorem transfer_create_conserves_witness :
    keySum "L1" "ProdA" (transfersCreate dbTrf trfReq).2.ledger =
      keySum "L1" "ProdA" dbTrf.ledger := by
  have hc : transfersCreate dbTrf trfReq =
      (201, (transfersCreate dbTrf trfReq).2) := by
    have h1 : (transfersCreate dbTrf trfReq).1 = 201 := by decide
    exact Prod.ext h1 rfl
  exact transfer_create_conserves dbTrf trfReq _ (by decide) (by decide) hc
    "L1" "ProdA"

theorem condAdd_pred_false {L : List LedgerRow} (p2 : LedgerRow → Bool) (δ : Int)
    (P : LedgerRow → Bool)
    (hP : ∀ (x : LedgerRow) (q : Int), P { x with quantity := q } = P x)
    (h : ∀ r ∈ L, P r = false) : ∀ r ∈ condAdd L p2 δ, P r = false := by
  intro r hr
  simp only [condAdd, List.mem_map] at hr
  obtain ⟨x, hx, hfx⟩ := hr
  subst hfx
  by_cases hc : p2 x = true
  · simp only [hc, if_pos]
    rw [hP]
    exact h x hx
  · rw [if_neg hc]
    exact h x hx

theorem deleteLoop_fail (src dst : String) :
    ∀ (tls : List TransferLine) (L : List LedgerRow),
      (∃ tl ∈ tls, ∀ r ∈ L, dstUpdPred dst tl r = false) →
      deleteLoop src dst L tls = none := by
  intro tls
  induction tls with
  | nil =>
    intro L hex
    obtain ⟨tl, h, _⟩ := hex
    cases h
  | cons tl0 tls ih =>
    intro L hex
    obtain ⟨tl, htl, habs⟩ := hex
    cases hfd : L.find? (dstUpdPred dst tl0) with
    | none => simp only [deleteLoop, hfd]
    | some d =>
      simp only [deleteLoop, hfd]
      rcases List.mem_cons.mp htl with rfl | htl'
      · exfalso
        have hdL : d ∈ L := List.mem_of_find?_eq_some hfd
        have hpd : dstUpdPred dst tl d = true := List.find?_some hfd
        rw [habs d hdL] at hpd
        exact Bool.noConfusion hpd
      · apply ih
        refine ⟨tl, htl', ?_⟩
        apply condAdd_pred_false _ _ (dstUpdPred dst tl) (fun x q => rfl)
        apply condAdd_pred_false _ _ (dstUpdPred dst tl) (fun x q => rfl)
        exact habs

/-- C10: for every transfer deletion in which the destination ledger row for
some transfer line's (mr_id, product) no longer exists, reading that row's
quantity throws (destructuring an undefined result), the transaction aborts,
no ledger row, transfer line or transfer header is changed, and the caller
receives HTTP 500. -/
theorem transfer_delete_missing_destination (st : DB) (trfId : String)
    (hdr : TransferHeader)
    (hfind : st.transfers.find? (fun t => imatch t.trf_id trfId) = some hdr)
    (hex : ∃ tl ∈ st.transferLines.filter
        (fun tl => imatch tl.trf_id hdr.trf_id),
      ∀ r ∈ st.ledger, dstUpdPred hdr.destination_inventory tl r = false) :
    transfersDelete st trfId = (500, st) := by
  unfold transfersDelete
  simp only [hfind]
  rw [deleteLoop_fail hdr.source_inventory hdr.destination_inventory _ _ hex]

theorem transfer_delete_missing_destination_witness :
    transfersDelete dbTrfNoDest "T1" = (500, dbTrfNoDest) :=
  transfer_delete_missing_destination dbTrfNoDest "T1" ⟨"T1", "A", "B"⟩
    (by decide) ⟨⟨"T1", "L1", "ProdA", 10⟩, by decide, by decide⟩

theorem lineTotal_eq (q : Int) (u d : Rat) :
    lineTotalCode q u d = lineTotalSpec q u d := by
  unfold lineTotalCode lineTotalSpec
  ring

theorem sumTotals_append (xs : List SaleLine) (x : SaleLine) :
    sumTotals (xs ++ [x]) = sumTotals xs + x.total_price := by
  simp [sumTotals]

theorem sellLoop_sum (bill inv : String) :
    ∀ (ls : List SaleReqLine) (L : List LedgerRow) (acc : List SaleLine)
      (L2 : List LedgerRow) (acc2 : List SaleLine),
      sellLoop bill inv L acc ls = some (L2, acc2) →
      sumTotals acc2 = sumTotals acc + (ls.map (fun l =>
        lineTotalCode l.quantity l.unit_price (l.discount.getD 0))).sum := by
  intro ls
  induction ls with
  | nil =>
    intro L acc L2 acc2 hloop
    simp only [sellLoop, Option.some.injEq, Prod.mk.injEq] at hloop
    rw [← hloop.2]
    simp
  | cons l0 ls ih =>
    intro L acc L2 acc2 hloop
    cases hfr : L.find? (salePred inv l0) with
    | none =>
      simp only [sellLoop, hfr] at hloop
      exact Option.noConfusion hloop
    | some r0 =>
      simp only [sellLoop, hfr] at hloop
      have := ih _ _ _ _ hloop
      rw [this, sumTotals_append]
      have hmk : (mkSaleLine bill inv r0 l0).total_price =
          lineTotalCode l0.quantity l0.unit_price (l0.discount.getD 0) := rfl
      rw [hmk, List.map_cons, List.sum_cons]
      ring

theorem sale_create_total (st : DB) (req : SaleReq) (st2 : DB)
    (h : salesCreate st req = (201, st2)) :
    st2.sales.find? (fun s => imatch s.bill_id req.bill_id) =
      some { newSaleHeader req with total_amount :=
        (req.products.map (fun l =>
          lineTotalSpec l.quantity l.unit_price (l.discount.getD 0))).sum } := by
  unfold salesCreate at h
  split at h
  · simp at h
  · split at h
    · rename_i h2
      simp at h
    · rename_i h2
      split at h
      · simp at h
      · split at h
        · simp at h
        · split at h
          · simp at h
          · next L acc heq =>
            have hdup : st.sales.find? (fun s => imatch s.bill_id req.bill_id) =
                none := by
              rcases hfind : st.sales.find?
                  (fun s => imatch s.bill_id req.bill_id) with _ | x
              · exact hfind
              · exact absurd (by simp [hfind]) h2
            have hst : st2.sales = (st.sales ++ [newSaleHeader req]).map
                (fun s => if imatch s.bill_id req.bill_id then
                  { s with total_amount := sumTotals acc } else s) := by
              have := (Prod.mk.injEq _ _ _ _).mp h
              rw [← this.2]
            rw [hst]
            have hpres : ∀ s ∈ st.sales ++ [newSaleHeader req],
                (fun s => imatch s.bill_id req.bill_id)
                  ((fun s => if imatch s.bill_id req.bill_id then
                    { s with total_amount := sumTotals acc } else s) s) =
                (fun s => imatch s.bill_id req.bill_id) s := by
              intro s _
              by_cases hs : imatch s.bill_id req.bill_id = true
              · simp [hs]
              · have hs2 : imatch s.bill_id req.bill_id = false := by
                  revert hs; cases imatch s.bill_id req.bill_id <;> simp
                simp [hs2]
            rw [find?_map_congr _ _ _ hpres,
              find?_append_none _ st.sales [newSaleHeader req] hdup]
            have hone : ([newSaleHeader req]).find?
                (fun s => imatch s.bill_id req.bill_id) =
                some (newSaleHeader req) := by
              have : imatch (newSaleHeader req).bill_id req.bill_id = true :=
                imatch_refl req.bill_id
              simp [List.find?_cons, this]
            rw [hone]
            have hsum := sellLoop_sum req.bill_id req.inventory req.products
              st.ledger [] L acc heq
            have hzero : sumTotals ([] : List SaleLine) = 0 := by simp [sumTotals]
            rw [hzero, zero_add] at hsum
            have hcongr : req.products.map (fun l =>
                lineTotalCode l.quantity l.unit_price (l.discount.getD 0)) =
              req.products.map (fun l =>
                lineTotalSpec l.quantity l.unit_price (l.discount.getD 0)) :=
              List.map_congr_left fun l _ => lineTotal_eq _ _ _
            rw [hcongr] at hsum
            simp only [Option.map_some']
            simp [newSaleHeader, imatch_refl, hsum]

theorem purchase_create_total (st : DB) (req : PurchaseReq) (st2 : DB)
    (h : purchasesCreate st req = (201, st2)) :
    st2.purchases.find? (fun pu => imatch pu.mr_id req.mr_id) =
      some ⟨req.mr_id, req.vendor, req.inventory, 0,
        (req.products.map (fun l =>
          lineTotalSpec l.quantity l.unit_price (l.discount.getD 0))).sum⟩ := by
  unfold purchasesCreate at h
  split at h
  · simp at h
  · split at h
    · rename_i h2
      simp at h
    · rename_i h2
      split at h
      · simp at h
      · split at h
        · simp at h
        · split at h
          · simp at h
          · have hdup : st.purchases.find?
                (fun pu => imatch pu.mr_id req.mr_id) = none := by
              rcases hfind : st.purchases.find?
                  (fun pu => imatch pu.mr_id req.mr_id) with _ | x
              · exact hfind
              · exact absurd (by simp [hfind]) h2
            have hst : st2.purchases = (st.purchases ++
                [({ mr_id := req.mr_id, vendor := req.vendor,
                    inventory := req.inventory, adjustment := 0,
                    total_price := 0 } : PurchaseHeader)]).map
                (fun pu => if imatch pu.mr_id req.mr_id then
                  { pu with total_price :=
                    ((req.products.map (mkPurchaseLine req.mr_id)).map
                      PurchaseLine.total_price).sum } else pu) := by
              have := (Prod.mk.injEq _ _ _ _).mp h
              rw [← this.2]
            rw [hst]
            have hpres : ∀ pu ∈ st.purchases ++
                [({ mr_id := req.mr_id, vendor := req.vendor,
                    inventory := req.inventory, adjustment := 0,
                    total_price := 0 } : PurchaseHeader)],
                (fun pu => imatch pu.mr_id req.mr_id)
                  ((fun pu => if imatch pu.mr_id req.mr_id then
                    { pu with total_price :=
                      ((req.products.map (mkPurchaseLine req.mr_id)).map
                        PurchaseLine.total_price).sum } else pu) pu) =
                (fun pu => imatch pu.mr_id req.mr_id) pu := by
              intro pu _
              by_cases hs : imatch pu.mr_id req.mr_id = true
              · simp [hs]
              · have hs2 : imatch pu.mr_id req.mr_id = false := by
                  revert hs; cases imatch pu.mr_id req.mr_id <;> simp
                simp [hs2]
            rw [find?_map_congr _ _ _ hpres,
              find?_append_none _ st.purchases _ hdup]
            have hone : ([({ mr_id := req.mr_id, vendor := req.vendor, inventory := req.inventory, adjustment := 0, total_price := 0 } : PurchaseHeader)]).find?
                (fun pu => imatch pu.mr_id req.mr_id) =
                some ⟨req.mr_id, req.vendor, req.inventory, 0, 0⟩ := by
              have : imatch req.mr_id req.mr_id = true := imatch_refl req.mr_id
              simp [List.find?_cons, this]
            rw [hone]
            have hsum : ((req.products.map (mkPurchaseLine req.mr_id)).map
                PurchaseLine.total_price).sum =
                (req.products.map (fun l =>
                  lineTotalSpec l.quantity l.unit_price
                    (l.discount.getD 0))).sum := by
              rw [List.map_map]
              congr 1
              exact List.map_congr_left fun l _ => lineTotal_eq _ _ _
            have hsum2 : (req.products.map
                (PurchaseLine.total_price ∘ mkPurchaseLine req.mr_id)).sum =
                (req.products.map (fun l =>
                  lineTotalSpec l.quantity l.unit_price
                    (l.discount.getD 0))).sum := by
              congr 1
              exact List.map_congr_left fun l _ => lineTotal_eq _ _ _
            simp only [Option.map_some']
            simp [imatch_refl, hsum, hsum2]

/-- C6: for every successful purchase creation and every successful sale
creation, the persisted header total (total_price for purchases,
total_amount for sales) equals the sum over all request lines of
quantity * unit_price * (1 - discount / 100), with the discount treated as 0
when absent or not parseable as a number. -/
theorem create_header_totals (stP : DB) (preq : PurchaseReq) (stP2 : DB)
    (stS : DB) (sreq : SaleReq) (stS2 : DB)
    (hp : purchasesCreate stP preq = (201, stP2))
    (hs : salesCreate stS sreq = (201, stS2)) :
    stP2.purchases.find? (fun pu => imatch pu.mr_id preq.mr_id) =
      some ⟨preq.mr_id, preq.vendor, preq.inventory, 0,
        (preq.products.map (fun l =>
          lineTotalSpec l.quantity l.unit_price (l.discount.getD 0))).sum⟩ ∧
    stS2.sales.find? (fun s => imatch s.bill_id sreq.bill_id) =
      some { newSaleHeader sreq with total_amount :=
        (sreq.products.map (fun l =>
          lineTotalSpec l.quantity l.unit_price (l.discount.getD 0))).sum } :=
  ⟨purchase_create_total stP preq stP2 hp, sale_create_total stS sreq stS2 hs⟩

theorem create_header_totals_witness :
    (purchasesCreate dbTotals purchaseReqTotals).2.purchases.find?
        (fun pu => imatch pu.mr_id purchaseReqTotals.mr_id) =
      some ⟨"MR2", "V", "Main", 0, 23⟩ ∧
    (salesCreate dbTotals saleReqTotals).2.sales.find?
        (fun s => imatch s.bill_id saleReqTotals.bill_id) =
      some ⟨"B9", "c1", "addr", 0, 6, "processing"⟩ := by
  have hp : purchasesCreate dbTotals purchaseReqTotals =
      (201, (purchasesCreate dbTotals purchaseReqTotals).2) := by
    have h1 : (purchasesCreate dbTotals purchaseReqTotals).1 = 201 := by decide
    exact Prod.ext h1 rfl
  have hs : salesCreate dbTotals saleReqTotals =
      (201, (salesCreate dbTotals saleReqTotals).2) := by
    have h1 : (salesCreate dbTotals saleReqTotals).1 = 201 := by decide
    exact Prod.ext h1 rfl
  have h := create_header_totals dbTotals purchaseReqTotals _
    dbTotals saleReqTotals _ hp hs
  refine ⟨?_, ?_⟩
  · rw [h.1]
    norm_num [purchaseReqTotals, lineTotalSpec]
  · rw [h.2]
    norm_num [saleReqTotals, lineTotalSpec, newSaleHeader]

theorem imatch_comm (a b : String) : imatch a b = imatch b a := by
  by_cases h : lowerStr a = lowerStr b
  · simp [imatch, h]
  · have h2 : lowerStr b ≠ lowerStr a := fun hh => h hh.symm
    simp [imatch, h, h2]

theorem imatch_false_of {a b c : String} (h1 : imatch a b = true)
    (h2 : imatch c b = false) : imatch a c = false := by
  have ha : lowerStr a = lowerStr b := imatch_iff.mp h1
  have hc : lowerStr c ≠ lowerStr b := by
    intro hh
    rw [imatch_iff.mpr hh] at h2
    exact Bool.noConfusion h2
  cases hb : imatch a c
  · rfl
  · exact absurd (ha ▸ imatch_iff.mp hb) fun hh => hc hh.symm

theorem srcUpdPred_false_of_keyne {src : String} {tl : TransferLine}
    {r : LedgerRow}
    (h : lowerStr tl.mr_id ≠ lowerStr r.mr_id ∨
      lowerStr tl.product ≠ lowerStr r.product) :
    srcUpdPred src tl r = false := by
  cases hb : srcUpdPred src tl r
  · rfl
  · exfalso
    simp [srcUpdPred] at hb
    rcases h with h | h
    · exact h (imatch_iff.mp hb.2).symm
    · exact h (imatch_iff.mp hb.1.2).symm

theorem dstUpdPred_false_of_keyne {dst : String} {tl : TransferLine}
    {r : LedgerRow}
    (h : lowerStr tl.mr_id ≠ lowerStr r.mr_id ∨
      lowerStr tl.product ≠ lowerStr r.product) :
    dstUpdPred dst tl r = false := by
  cases hb : dstUpdPred dst tl r
  · rfl
  · exfalso
    simp [dstUpdPred] at hb
    rcases h with h | h
    · exact h (imatch_iff.mp hb.2).symm
    · exact h (imatch_iff.mp hb.1.2).symm

theorem condAdd_nodup {L : List LedgerRow} (p : LedgerRow → Bool) (δ : Int)
    (h : (L.map LedgerRow.id).Nodup) :
    ((condAdd L p δ).map LedgerRow.id).Nodup := by
  rw [condAdd_ids]
  exact h

theorem condAdd_mem_fixed {L : List LedgerRow} {p : LedgerRow → Bool} {δ : Int}
    {d : LedgerRow} (hd : d ∈ L) (hfix : p d = false) : d ∈ condAdd L p δ := by
  have hfd : (fun r => if p r then { r with quantity := r.quantity + δ }
      else r) d = d := by
    simp [hfix]
  exact hfd ▸ List.mem_map_of_mem _ hd

theorem condAdd_unique {L : List LedgerRow} (p2 : LedgerRow → Bool) (δ : Int)
    {d : LedgerRow} (P : LedgerRow → Bool)
    (hP : ∀ (x : LedgerRow) (q : Int), P { x with quantity := q } = P x)
    (hd : d ∈ L) (hpd : P d = true) (hu : ∀ r ∈ L, P r = true → r = d)
    (hfix : p2 d = false) :
    d ∈ condAdd L p2 δ ∧ ∀ r ∈ condAdd L p2 δ, P r = true → r = d := by
  refine ⟨condAdd_mem_fixed hd hfix, ?_⟩
  intro r hr hpr
  simp only [condAdd, List.mem_map] at hr
  obtain ⟨x, hx, hfx⟩ := hr
  subst hfx
  by_cases hc : p2 x = true
  · exfalso
    simp only [hc, if_pos] at hpr
    rw [hP] at hpr
    have hxd := hu x hx hpr
    rw [hxd, hfix] at hc
    exact Bool.noConfusion hc
  · rw [if_neg hc] at hpr ⊢
    exact hu x hx hpr

theorem deleteLoop_frame (src dst : String) :
    ∀ (tls : List TransferLine) (L : List LedgerRow) (rid : Nat)
      (X : LedgerRow) (L2 : List LedgerRow),
      (L.map LedgerRow.id).Nodup →
      L.find? (fun x => x.id == rid) = some X →
      (∀ tl ∈ tls, lowerStr tl.mr_id ≠ lowerStr X.mr_id ∨
        lowerStr tl.product ≠ lowerStr X.product) →
      deleteLoop src dst L tls = some L2 →
      L2.find? (fun x => x.id == rid) = some X := by
  intro tls
  induction tls with
  | nil =>
    intro L rid X L2 _ hfind _ hloop
    simp only [deleteLoop, Option.some.injEq] at hloop
    rw [← hloop]
    exact hfind
  | cons tl0 tls ih =>
    intro L rid X L2 hnd hfind hne hloop
    cases hfd : L.find? (dstUpdPred dst tl0) with
    | none =>
      simp only [deleteLoop, hfd] at hloop
      exact Option.noConfusion hloop
    | some d =>
      simp only [deleteLoop, hfd] at hloop
      have hXs : srcUpdPred src tl0 X = false :=
        srcUpdPred_false_of_keyne (hne tl0 (List.mem_cons_self tl0 tls))
      have hXd : dstUpdPred dst tl0 X = false :=
        dstUpdPred_false_of_keyne (hne tl0 (List.mem_cons_self tl0 tls))
      have hfind1 : (condAdd L (srcUpdPred src tl0) d.quantity).find?
          (fun x => x.id == rid) = some X := by
        rw [find?_id_condAdd, hfind]
        simp [hXs]
      have hfind2 : (condAdd (condAdd L (srcUpdPred src tl0) d.quantity)
          (dstUpdPred dst tl0) (-d.quantity)).find?
          (fun x => x.id == rid) = some X := by
        rw [find?_id_condAdd, hfind1]
        simp [hXd]
      exact ih _ rid X L2
        (condAdd_nodup _ _ (condAdd_nodup _ _ hnd)) hfind2
        (fun tl htl => hne tl (List.mem_cons_of_mem tl0 htl)) hloop

theorem deleteLoop_reverses (src dst : String)
    (hsd : imatch src dst = false) :
    ∀ (tls : List TransferLine) (L : List LedgerRow),
      (L.map LedgerRow.id).Nodup →
      tls.Pairwise (fun t1 t2 => lowerStr t1.mr_id ≠ lowerStr t2.mr_id ∨
        lowerStr t1.product ≠ lowerStr t2.product) →
      (∀ tl ∈ tls, ∃ d, d ∈ L ∧ dstUpdPred dst tl d = true ∧
        (∀ r ∈ L, dstUpdPred dst tl r = true → r = d)) →
      (∀ tl ∈ tls, ∃ s, s ∈ L ∧ srcUpdPred src tl s = true ∧
        (∀ r ∈ L, srcUpdPred src tl r = true → r = s)) →
      ∃ L2, deleteLoop src dst L tls = some L2 ∧
        ∀ tl ∈ tls, ∀ d s : LedgerRow,
          d ∈ L → dstUpdPred dst tl d = true →
          s ∈ L → srcUpdPred src tl s = true →
          L2.find? (fun x => x.id == d.id) = some { d with quantity := 0 } ∧
          L2.find? (fun x => x.id == s.id) =
            some { s with quantity := s.quantity + d.quantity } := by
  intro tls
  induction tls with
  | nil =>
    intro L _ _ _ _
    exact ⟨L, rfl, fun tl htl => absurd htl (List.not_mem_nil tl)⟩
  | cons tl0 tls ih =>
    intro L hnd hpw hdest hsrc
    rw [List.pairwise_cons] at hpw
    obtain ⟨d0, hd0L, hpd0, hud0⟩ := hdest tl0 (List.mem_cons_self tl0 tls)
    obtain ⟨s0, hs0L, hps0, hus0⟩ := hsrc tl0 (List.mem_cons_self tl0 tls)
    have hfd : L.find? (dstUpdPred dst tl0) = some d0 :=
      find?_eq_of_unique _ L hd0L hpd0 hud0
    have hd0c : ((imatch d0.inventory dst = true ∧
        imatch d0.product tl0.product = true) ∧
        imatch d0.mr_id tl0.mr_id = true) := by
      simpa [dstUpdPred] using hpd0
    have hs0c : ((imatch s0.inventory src = true ∧
        imatch s0.product tl0.product = true) ∧
        imatch s0.mr_id tl0.mr_id = true) := by
      simpa [srcUpdPred] using hps0
    have hds : imatch d0.inventory src = false :=
      imatch_false_of hd0c.1.1 hsd
    have hsdst : imatch s0.inventory dst = false :=
      imatch_false_of hs0c.1.1 ((imatch_comm dst src).trans hsd)
    have hsfix_d : srcUpdPred src tl0 d0 = false := by
      cases hb : srcUpdPred src tl0 d0
      · rfl
      · exfalso
        simp [srcUpdPred] at hb
        rw [hds] at hb
        exact Bool.noConfusion hb.1.1
    have hdfix_s : dstUpdPred dst tl0 s0 = false := by
      cases hb : dstUpdPred dst tl0 s0
      · rfl
      · exfalso
        simp [dstUpdPred] at hb
        rw [hsdst] at hb
        exact Bool.noConfusion hb.1.1
    have hnd1 := condAdd_nodup (srcUpdPred src tl0) d0.quantity hnd
    have hnd2 := condAdd_nodup (dstUpdPred dst tl0) (-d0.quantity) hnd1
    have hq0 : d0.quantity + -d0.quantity = 0 := by omega
    have hstep_d : (condAdd (condAdd L (srcUpdPred src tl0) d0.quantity)
        (dstUpdPred dst tl0) (-d0.quantity)).find? (fun x => x.id == d0.id) =
        some { d0 with quantity := 0 } := by
      rw [find?_id_condAdd, find?_id_condAdd, find?_id_of_nodup hnd hd0L]
      simp [hsfix_d, hpd0, hq0]
    have hpds : dstUpdPred dst tl0
        { s0 with quantity := s0.quantity + d0.quantity } = false := hdfix_s
    have hstep_s : (condAdd (condAdd L (srcUpdPred src tl0) d0.quantity)
        (dstUpdPred dst tl0) (-d0.quantity)).find? (fun x => x.id == s0.id) =
        some { s0 with quantity := s0.quantity + d0.quantity } := by
      rw [find?_id_condAdd, find?_id_condAdd, find?_id_of_nodup hnd hs0L]
      simp [hps0, hpds]
    have hkd_mr : lowerStr d0.mr_id = lowerStr tl0.mr_id :=
      imatch_iff.mp hd0c.2
    have hkd_pr : lowerStr d0.product = lowerStr tl0.product :=
      imatch_iff.mp hd0c.1.2
    have hks_mr : lowerStr s0.mr_id = lowerStr tl0.mr_id :=
      imatch_iff.mp hs0c.2
    have hks_pr : lowerStr s0.product = lowerStr tl0.product :=
      imatch_iff.mp hs0c.1.2
    have htrans : ∀ tl ∈ tls, ∀ (r : LedgerRow),
        dstUpdPred dst tl r = true ∨ srcUpdPred src tl r = true →
        srcUpdPred src tl0 r = false ∧ dstUpdPred dst tl0 r = false := by
      intro tl htl r hpr
      have hkey : lowerStr r.mr_id = lowerStr tl.mr_id ∧
          lowerStr r.product = lowerStr tl.product := by
        rcases hpr with hpr | hpr
        · have hc : ((imatch r.inventory dst = true ∧
              imatch r.product tl.product = true) ∧
              imatch r.mr_id tl.mr_id = true) := by
            simpa [dstUpdPred] using hpr
          exact ⟨imatch_iff.mp hc.2, imatch_iff.mp hc.1.2⟩
        · have hc : ((imatch r.inventory src = true ∧
              imatch r.product tl.product = true) ∧
              imatch r.mr_id tl.mr_id = true) := by
            simpa [srcUpdPred] using hpr
          exact ⟨imatch_iff.mp hc.2, imatch_iff.mp hc.1.2⟩
      have hne0 : lowerStr tl0.mr_id ≠ lowerStr r.mr_id ∨
          lowerStr tl0.product ≠ lowerStr r.product := by
        rcases hpw.1 tl htl with h | h
        · left
          rw [hkey.1]
          exact h
        · right
          rw [hkey.2]
          exact h
      exact ⟨srcUpdPred_false_of_keyne hne0, dstUpdPred_false_of_keyne hne0⟩
    have hdest2 : ∀ tl ∈ tls, ∃ d,
        d ∈ condAdd (condAdd L (srcUpdPred src tl0) d0.quantity)
          (dstUpdPred dst tl0) (-d0.quantity) ∧ dstUpdPred dst tl d = true ∧
        (∀ r ∈ condAdd (condAdd L (srcUpdPred src tl0) d0.quantity)
          (dstUpdPred dst tl0) (-d0.quantity),
          dstUpdPred dst tl r = true → r = d) := by
      intro tl htl
      obtain ⟨d, hdL, hpd, hud⟩ := hdest tl (List.mem_cons_of_mem tl0 htl)
      have hfix := htrans tl htl d (Or.inl hpd)
      have h1 := condAdd_unique (srcUpdPred src tl0) d0.quantity
        (dstUpdPred dst tl) (fun x q => rfl) hdL hpd hud hfix.1
      have h2 := condAdd_unique (dstUpdPred dst tl0) (-d0.quantity)
        (dstUpdPred dst tl) (fun x q => rfl) h1.1 hpd h1.2 hfix.2
      exact ⟨d, h2.1, hpd, h2.2⟩
    have hsrc2 : ∀ tl ∈ tls, ∃ s,
        s ∈ condAdd (condAdd L (srcUpdPred src tl0) d0.quantity)
          (dstUpdPred dst tl0) (-d0.quantity) ∧ srcUpdPred src tl s = true ∧
        (∀ r ∈ condAdd (condAdd L (srcUpdPred src tl0) d0.quantity)
          (dstUpdPred dst tl0) (-d0.quantity),
          srcUpdPred src tl r = true → r = s) := by
      intro tl htl
      obtain ⟨s, hsL, hps, hus⟩ := hsrc tl (List.mem_cons_of_mem tl0 htl)
      have hfix := htrans tl htl s (Or.inr hps)
      have h1 := condAdd_unique (srcUpdPred src tl0) d0.quantity
        (srcUpdPred src tl) (fun x q => rfl) hsL hps hus hfix.1
      have h2 := condAdd_unique (dstUpdPred dst tl0) (-d0.quantity)
        (srcUpdPred src tl) (fun x q => rfl) h1.1 hps h1.2 hfix.2
      exact ⟨s, h2.1, hps, h2.2⟩
    obtain ⟨L2, hrun, hprop⟩ := ih _ hnd2 hpw.2 hdest2 hsrc2
    refine ⟨L2, ?_, ?_⟩
    · simp only [deleteLoop, hfd]
      exact hrun
    · intro tl htl d s hdL hpd hsL hps
      rcases List.mem_cons.mp htl with rfl | htl'
      · have hdd0 : d = d0 := hud0 d hdL hpd
        have hss0 : s = s0 := hus0 s hsL hps
        subst hdd0
        subst hss0
        constructor
        · refine deleteLoop_frame src dst tls _ d.id _ L2 hnd2 hstep_d ?_ hrun
          intro tl htl2
          rcases hpw.1 tl htl2 with h | h
          · left
            show lowerStr tl.mr_id ≠ lowerStr d.mr_id
            rw [hkd_mr]
            exact fun hh => h hh.symm
          · right
            show lowerStr tl.product ≠ lowerStr d.product
            rw [hkd_pr]
            exact fun hh => h hh.symm
        · refine deleteLoop_frame src dst tls _ s.id _ L2 hnd2 hstep_s ?_ hrun
          intro tl htl2
          rcases hpw.1 tl htl2 with h | h
          · left
            show lowerStr tl.mr_id ≠ lowerStr s.mr_id
            rw [hks_mr]
            exact fun hh => h hh.symm
          · right
            show lowerStr tl.product ≠ lowerStr s.product
            rw [hks_pr]
            exact fun hh => h hh.symm
      · have hfixd := htrans tl htl' d (Or.inl hpd)
        have hfixs := htrans tl htl' s (Or.inr hps)
        exact hprop tl htl' d s
          (condAdd_mem_fixed (condAdd_mem_fixed hdL hfixd.1) hfixd.2) hpd
          (condAdd_mem_fixed (condAdd_mem_fixed hsL hfixs.1) hfixs.2) hps

/-- C5: for every transfer deletion (distinct source and destination, unique
matching ledger rows per line, lines with pairwise distinct lot/product
keys), each transfer line's destination ledger row's current quantity — not
the originally transferred amount — is added to the matching source ledger
row and subtracted from the destination row, leaving it at zero, and the
transfer lines and the header are deleted. -/
theorem transfer_delete_reversal (st : DB) (trfId : String)
    (hdr : TransferHeader)
    (hfind : st.transfers.find? (fun t => imatch t.trf_id trfId) = some hdr)
    (hsd : imatch hdr.source_inventory hdr.destination_inventory = false)
    (hnd : (st.ledger.map LedgerRow.id).Nodup)
    (hpw : (st.transferLines.filter
        (fun tl => imatch tl.trf_id hdr.trf_id)).Pairwise
      (fun t1 t2 => lowerStr t1.mr_id ≠ lowerStr t2.mr_id ∨
        lowerStr t1.product ≠ lowerStr t2.product))
    (hdest : ∀ tl ∈ st.transferLines.filter
        (fun tl => imatch tl.trf_id hdr.trf_id), ∃ d,
      d ∈ st.ledger ∧ dstUpdPred hdr.destination_inventory tl d = true ∧
      (∀ r ∈ st.ledger,
        dstUpdPred hdr.destination_inventory tl r = true → r = d))
    (hsrc : ∀ tl ∈ st.transferLines.filter
        (fun tl => imatch tl.trf_id hdr.trf_id), ∃ s,
      s ∈ st.ledger ∧ srcUpdPred hdr.source_inventory tl s = true ∧
      (∀ r ∈ st.ledger,
        srcUpdPred hdr.source_inventory tl r = true → r = s)) :
    (transfersDelete st trfId).1 = 200 ∧
    (transfersDelete st trfId).2.transfers =
      st.transfers.filter (fun t => !(imatch t.trf_id trfId)) ∧
    (transfersDelete st trfId).2.transferLines =
      st.transferLines.filter (fun tl => !(imatch tl.trf_id hdr.trf_id)) ∧
    ∀ tl ∈ st.transferLines.filter (fun tl => imatch tl.trf_id hdr.trf_id),
      ∀ d s : LedgerRow,
      d ∈ st.ledger → dstUpdPred hdr.destination_inventory tl d = true →
      s ∈ st.ledger → srcUpdPred hdr.source_inventory tl s = true →
      (transfersDelete st trfId).2.ledger.find? (fun x => x.id == d.id) =
        some { d with quantity := 0 } ∧
      (transfersDelete st trfId).2.ledger.find? (fun x => x.id == s.id) =
        some { s with quantity := s.quantity + d.quantity } := by
  obtain ⟨L2, hrun, hprop⟩ := deleteLoop_reverses hdr.source_inventory
    hdr.destination_inventory hsd
    (st.transferLines.filter (fun tl => imatch tl.trf_id hdr.trf_id))
    st.ledger hnd hpw hdest hsrc
  have hD : transfersDelete st trfId = (200, { st with
      ledger := L2
      transferLines := st.transferLines.filter fun tl =>
        !(imatch tl.trf_id hdr.trf_id)
      transfers := st.transfers.filter fun t => !(imatch t.trf_id trfId) }) := by
    unfold transfersDelete
    simp only [hfind, hrun]
  rw [hD]
  exact ⟨rfl, rfl, rfl, hprop⟩

theorem transfer_delete_reversal_witness :
    (transfersDelete dbTrf "T1").1 = 200 ∧
    (transfersDelete dbTrf "T1").2.transfers = [] ∧
    (transfersDelete dbTrf "T1").2.transferLines = [] ∧
    (transfersDelete dbTrf "T1").2.ledger.find? (fun x => x.id == 1) =
      some ⟨1, "L1", "B", "ProdA", 0⟩ ∧
    (transfersDelete dbTrf "T1").2.ledger.find? (fun x => x.id == 0) =
      some ⟨0, "L1", "A", "ProdA", 7 + 4⟩ := by
  have h := transfer_delete_reversal dbTrf "T1" ⟨"T1", "A", "B"⟩
    (by decide) (by decide) (by decide)
    (by decide)
    (by
      intro tl htl
      simp [dbTrf, emptyDB] at htl
      obtain ⟨htl1, -⟩ := htl
      subst htl1
      exact ⟨⟨1, "L1", "B", "ProdA", 4⟩, by decide, by decide, by decide⟩)
    (by
      intro tl htl
      simp [dbTrf, emptyDB] at htl
      obtain ⟨htl1, -⟩ := htl
      subst htl1
      exact ⟨⟨0, "L1", "A", "ProdA", 7⟩, by decide, by decide, by decide⟩)
  have hline : (⟨"T1", "L1", "ProdA", 10⟩ : TransferLine) ∈
      dbTrf.transferLines.filter
        (fun tl => imatch tl.trf_id (⟨"T1", "A", "B"⟩ : TransferHeader).trf_id) :=
    by decide
  have hmain := h.2.2.2 ⟨"T1", "L1", "ProdA", 10⟩ hline
    ⟨1, "L1", "B", "ProdA", 4⟩ ⟨0, "L1", "A", "ProdA", 7⟩
    (by decide) (by decide) (by decide) (by decide)
  refine ⟨h.1, ?_, ?_, hmain.1, hmain.2⟩
  · rw [h.2.1]
    decide
  · rw [h.2.2.1]
    decide
